import Mathlib

/-!
Formal model of the Faster Chromium browser extension.

The extension's content script (`content.js`), background worker
(`background.js`) and page-context script (`injected.js`) are embedded
shallowly: a DOM document is a list of element records, each pass
executor is a pure function on documents, and the content-script
lifecycle (settings messages, readiness events, mutation batches, idle
callbacks, intersection callbacks) is a step function over an explicit
state record driven by an event list.

Modelling conventions, fixed once here:
* Machine integer/pixel quantities are `Int`; counters are `Nat`.
* The browser URL parser (`new URL(...)`) is a platform primitive, not
  repository code; an element record carries `parsedUrl`, the parse of
  its `href`/`src` (none when the attribute is absent or unparsable),
  and `hrefStr`, the resolved `href`/`src` property ("" when absent).
* `appendChild` on `document.head` is modelled as appending to the end
  of the flat element list.  No claim below depends on the relative
  order of head and body elements: existence queries and per-element
  maps are order-insensitive.
* DOM event listeners that the code registers with `once: true` are
  modelled as boolean flags on the element (`pendingStabilize`,
  `pendingMediaRestore`); registering such a listener twice is
  behaviourally identical to registering it once because the listener
  bodies re-check their guards, which matches the boolean model.
* The metrics counters of the content script are not modelled; no
  claim refers to them.
-/

namespace FC

/-- Components of a successfully parsed URL (`new URL(...)`), exactly
the fields the source code inspects. -/
structure Url where
  origin : String
  protocol : String
  pathname : String
  search : String
deriving DecidableEq

/-- A bounding client rect as returned by `getBoundingClientRect()`,
integer-valued CSS pixels. -/
structure Rect where
  top : Int
  bottom : Int
  left : Int
  right : Int
deriving DecidableEq

/-- Page environment: viewport size (`window.innerWidth/innerHeight`)
and the page location (`location.origin`, `location.pathname`). -/
structure Ctx where
  innerW : Int
  innerH : Int
  origin : String
  pathname : String
deriving DecidableEq

/-- Attribute lookup on an association list, first binding wins
(models `getAttribute`: `none` = attribute absent). -/
def getAttrList (k : String) : List (String × String) → Option String
  | [] => none
  | (k', v) :: rest => if k' = k then some v else getAttrList k rest

/-- Attribute update (models `setAttribute`: replace first binding or
append a new one). -/
def setAttrList (k v : String) : List (String × String) → List (String × String)
  | [] => [(k, v)]
  | (k', v') :: rest => if k' = k then (k, v) :: rest else (k', v') :: setAttrList k v rest

/-- Attribute removal (models `removeAttribute`). -/
def removeAttrList (k : String) : List (String × String) → List (String × String)
  | [] => []
  | (k', v') :: rest => if k' = k then removeAttrList k rest else (k', v') :: removeAttrList k rest

/-- A DOM element.  `tag` is the lowercase tag name.  `sheetLoaded`
models `link.sheet` being non-null.  `isMainChildDiv` records whether
the element matches the selector `main > div` (structural information
the flat list cannot express).  `paused` models the media-element
paused state.  -/
structure Elem where
  tag : String
  attrs : List (String × String)
  rect : Rect
  naturalWidth : Nat
  naturalHeight : Nat
  sheetLoaded : Bool
  hrefStr : String
  parsedUrl : Option Url
  styleAspectRatio : Option String
  paused : Bool
  pendingStabilize : Bool
  pendingMediaRestore : Bool
  isMainChildDiv : Bool
deriving DecidableEq

def defaultRect : Rect := { top := 0, bottom := 0, left := 0, right := 0 }

def defaultElem : Elem :=
  { tag := "", attrs := [], rect := defaultRect, naturalWidth := 0, naturalHeight := 0,
    sheetLoaded := false, hrefStr := "", parsedUrl := none, styleAspectRatio := none,
    paused := false, pendingStabilize := false, pendingMediaRestore := false,
    isMainChildDiv := false }

instance : Inhabited Elem := ⟨defaultElem⟩

def getAttr (e : Elem) (k : String) : Option String := getAttrList k e.attrs

/-- `hasAttribute`. -/
def hasAttr (e : Elem) (k : String) : Bool := (getAttr e k).isSome

/-- `getAttribute` with the empty string for a missing attribute
(also models reflected string properties such as `link.media`). -/
def getAttrD (e : Elem) (k : String) : String := (getAttr e k).getD ""

def setAttr (e : Elem) (k v : String) : Elem := { e with attrs := setAttrList k v e.attrs }

def removeAttr (e : Elem) (k : String) : Elem := { e with attrs := removeAttrList k e.attrs }

/-- A document: the element list (document order) plus the
`font-face` rules reachable through `document.styleSheets`, each with
its accessibility (same-origin) flag and current `font-display`
value. -/
structure Doc where
  elems : List Elem
  fontRules : List (Bool × String)
deriving DecidableEq

/-- Configuration Snapshot: the settings object of the extension
(`DEFAULT_SETTINGS` shape in `background.js`). -/
structure Settings where
  enabled : Bool
  disableAnimations : Bool
  lazyLoadImages : Bool
  disableAutoplay : Bool
  throttleTimers : Bool
  prefetchDNS : Bool
  preloadLCP : Bool
  prefetchLinks : Bool
  optimizeImagePriority : Bool
  lazyLoadIframes : Bool
  reduceMediaPreload : Bool
  fontDisplaySwap : Bool
  contentVisibility : Bool
  stabilizeLayout : Bool
  nonBlockingCSS : Bool
  deferScripts : Bool
  passiveListeners : Bool
deriving DecidableEq

/-- `document.getElementById`, as the first element whose `id`
attribute matches. -/
def getElementById (d : Doc) (x : String) : Option Elem :=
  d.elems.find? (fun e => getAttrD e "id" = x)

def hasElemWithId (d : Doc) (x : String) : Bool :=
  d.elems.any (fun e => getAttrD e "id" = x)

/-- Value of the digit run at the head of a character list, if any
(helper for the `parseInt` model). -/
def digitsVal (cs : List Char) : Option Nat :=
  let ds := cs.takeWhile Char.isDigit
  if ds.isEmpty then none
  else some (ds.foldl (fun a c => a * 10 + (c.toNat - 48)) 0)

/-- Model of the JavaScript `parseInt` platform primitive: optional
sign followed by a maximal run of leading digits; `none` plays the
role of `NaN`. -/
def jsParseInt (s : String) : Option Int :=
  match s.data with
  | '-' :: rest => (digitsVal rest).map (fun n => -(n : Int))
  | '+' :: rest => (digitsVal rest).map (fun n => (n : Int))
  | cs => (digitsVal cs).map (fun n => (n : Int))

/-- Insertion into a JavaScript `Set` kept as a list: first insertion
order, duplicates ignored. -/
def insertOnceEnd (l : List String) (x : String) : List String :=
  if x ∈ l then l else l ++ [x]

/-- The contents of a JavaScript `Set` built by inserting the list
elements left to right. -/
def jsSetOfList (xs : List String) : List String := xs.foldl insertOnceEnd []

/-- Character-list prefix test (directly computable rendering of the
string `startsWith` primitive). -/
def charListPrefix : List Char → List Char → Bool
  | [], _ => true
  | _ :: _, [] => false
  | c :: cs, c' :: cs' => c = c' ∧ charListPrefix cs cs'

/-- `s.startsWith pre`. -/
def strStartsWith (s pre : String) : Bool := charListPrefix pre.data s.data

def charListContains (t : List Char) : List Char → Bool
  | [] => charListPrefix t []
  | c :: rest => charListPrefix t (c :: rest) || charListContains t rest

/-- Substring containment: `t` occurs somewhere inside `s`. -/
def strContains (s t : String) : Bool := charListContains t.data s.data

/-- ASCII lower-casing of one character (rendering of the
case-insensitive regex flag). -/
def charLower (c : Char) : Char :=
  if 'A' ≤ c ∧ c ≤ 'Z' then Char.ofNat (c.toNat + 32) else c

def strLower (s : String) : String := String.mk (s.data.map charLower)

-- =========================================================================
--  content.js: pass executors
-- =========================================================================

def animStyleId : String := "faster-chromium-disable-animations"
def cvStyleId : String := "faster-chromium-content-visibility"

/-- The singleton style element injected under a fixed id (its
`textContent` is irrelevant to every claim and is not modelled). -/
def mkStyleElem (x : String) : Elem := { defaultElem with tag := "style", attrs := [("id", x)] }

/-- `disableAnimations`: inject the animation-suppression style once,
guarded by the fixed element id. -/
def disableAnimationsF (s : Settings) (d : Doc) : Doc :=
  if !s.disableAnimations then d
  else if (getElementById d animStyleId).isSome then d
  else { d with elems := d.elems ++ [mkStyleElem animStyleId] }

/-- Per-element body of `setupLazyLoading`
(`img:not([loading])` gets `loading="lazy"`). -/
def lazyImgStep (e : Elem) : Elem :=
  if e.tag = "img" ∧ ¬ hasAttr e "loading" then setAttr e "loading" "lazy" else e

def setupLazyLoadingF (s : Settings) (d : Doc) : Doc :=
  if !s.lazyLoadImages then d
  else { d with elems := d.elems.map lazyImgStep }

/-- Per-element body of `setupLazyLoadIframes`: skip 1x1 tracking
iframes (`iframe.width`/`iframe.height` reflect the attributes, "",
i.e. falsy, when absent), otherwise add `loading="lazy"`. -/
def intAtMostOne (o : Option Int) : Bool :=
  match o with
  | some n => n ≤ 1
  | none => false

def lazyIframeStep (e : Elem) : Elem :=
  if e.tag = "iframe" ∧ ¬ hasAttr e "loading" then
    let w := getAttrD e "width"
    let h := getAttrD e "height"
    if w ≠ "" ∧ intAtMostOne (jsParseInt w) then e
    else if h ≠ "" ∧ intAtMostOne (jsParseInt h) then e
    else setAttr e "loading" "lazy"
  else e

def setupLazyLoadIframesF (s : Settings) (d : Doc) : Doc :=
  if !s.lazyLoadIframes then d
  else { d with elems := d.elems.map lazyIframeStep }

/-- One element of the `video[autoplay]` (resp. `audio[autoplay]`)
sweep of `disableAutoplay`: strip the attribute and pause. -/
def autoplayStep (t : String) (e : Elem) : Elem :=
  if e.tag = t ∧ hasAttr e "autoplay" then
    let e1 := removeAttr e "autoplay"
    { e1 with paused := true }
  else e

def disableAutoplayF (s : Settings) (d : Doc) : Doc :=
  if !s.disableAutoplay then d
  else { d with elems := (d.elems.map (autoplayStep "video")).map (autoplayStep "audio") }

/-- Per-element body of `reduceMediaPreload`: claim with
`data-fc-media-opt`, then downgrade a missing/empty/`auto` preload
hint to `metadata`. -/
def mediaPreloadStep (e : Elem) : Elem :=
  if (e.tag = "video" ∨ e.tag = "audio") ∧ ¬ hasAttr e "data-fc-media-opt" then
    let e1 := setAttr e "data-fc-media-opt" ""
    let p := getAttrD e1 "preload"
    if p = "" ∨ p = "auto" then setAttr e1 "preload" "metadata" else e1
  else e

def reduceMediaPreloadF (s : Settings) (d : Doc) : Doc :=
  if !s.reduceMediaPreload then d
  else { d with elems := d.elems.map mediaPreloadStep }

/-- Body of `optimizeImageLoading` for one unclaimed `img`: claim with
`data-fc-optimized`, set `decoding="async"` when no decoding attribute
is present, and when no `fetchpriority` is present choose "high"
exactly when `rect.top < viewportHeight && rect.bottom > 0`. -/
def optImgStep (ctx : Ctx) (e : Elem) : Elem :=
  let e1 := setAttr e "data-fc-optimized" ""
  let e2 := if ¬ hasAttr e1 "decoding" then setAttr e1 "decoding" "async" else e1
  if ¬ hasAttr e2 "fetchpriority" then
    if e.rect.top < ctx.innerH ∧ e.rect.bottom > 0 then setAttr e2 "fetchpriority" "high"
    else setAttr e2 "fetchpriority" "low"
  else e2

/-- `optimizeImageLoading`, gated per element on the claim marker. -/
def optImgGate (ctx : Ctx) (e : Elem) : Elem :=
  if e.tag = "img" ∧ ¬ hasAttr e "data-fc-optimized" then optImgStep ctx e else e

def optimizeImageLoadingF (ctx : Ctx) (s : Settings) (d : Doc) : Doc :=
  if !s.optimizeImagePriority then d
  else { d with elems := d.elems.map (optImgGate ctx) }

/-- Matches the candidate selector of `setupDNSPrefetch`:
`a[href], img[src], script[src], link[href]`. -/
def dnsSelectorMatch (e : Elem) : Bool :=
  (e.tag = "a" ∧ hasAttr e "href") ∨ (e.tag = "img" ∧ hasAttr e "src") ∨
  (e.tag = "script" ∧ hasAttr e "src") ∨ (e.tag = "link" ∧ hasAttr e "href")

/-- Origin collection of `setupDNSPrefetch`: distinct (first-insertion
order) origins of matched elements whose URL parses, is cross-origin
and has an `http`-family protocol. -/
def collectOrigins (ctx : Ctx) (d : Doc) : List String :=
  jsSetOfList (d.elems.filterMap (fun e =>
    if dnsSelectorMatch e then
      match e.parsedUrl with
      | some u =>
        if u.origin ≠ ctx.origin ∧ strStartsWith u.protocol "http" then some u.origin else none
      | none => none
    else none))

/-- The scheme part of an origin string, up to the first slash. -/
def schemeOf (o : String) : String := String.mk (o.data.takeWhile (fun c => c ≠ '/'))

/-- Model of the browser parse of an origin string such as
"https://host" (a platform primitive): the origin is itself, the
protocol its scheme part, the path the root. -/
def parseOriginUrl (o : String) : Url :=
  { origin := o, protocol := schemeOf o, pathname := "/", search := "" }

def mkDnsLink (o : String) : Elem :=
  { defaultElem with
    tag := "link", attrs := [("rel", "dns-prefetch"), ("href", o)],
    hrefStr := o, parsedUrl := some (parseOriginUrl o) }

def mkPreconnect (o : String) : Elem :=
  { defaultElem with
    tag := "link",
    attrs := [("rel", "preconnect"), ("href", o), ("crossorigin", "anonymous")],
    hrefStr := o, parsedUrl := some (parseOriginUrl o) }

def hintPair (o : String) : List Elem := [mkDnsLink o, mkPreconnect o]

/-- `document.querySelector('link[rel="dns-prefetch"][href=...]')`
presence check. -/
def dnsHintExists (d : Doc) (o : String) : Bool :=
  d.elems.any (fun e => e.tag = "link" ∧ getAttrD e "rel" = "dns-prefetch" ∧ getAttrD e "href" = o)

/-- Injection loop of `setupDNSPrefetch`: stop at `count >= 10`, skip
(without counting) origins that already have a dns-prefetch hint,
otherwise append a dns-prefetch plus preconnect pair and count it. -/
def dnsLoop : List String → Nat → Doc → Doc
  | [], _, d => d
  | o :: rest, count, d =>
    if count ≥ 10 then d
    else if dnsHintExists d o then dnsLoop rest count d
    else dnsLoop rest (count + 1) { d with elems := d.elems ++ hintPair o }

def setupDNSPrefetchF (ctx : Ctx) (s : Settings) (d : Doc) : Doc :=
  if !s.prefetchDNS then d
  else dnsLoop (collectOrigins ctx d) 0 d

/-- 2D visibility test of `preloadLCPCandidate`
(`rect.top < innerHeight && rect.bottom > 0 && rect.left < innerWidth
&& rect.right > 0`). -/
def lcpVisible (ctx : Ctx) (r : Rect) : Bool :=
  r.top < ctx.innerH ∧ r.bottom > 0 ∧ r.left < ctx.innerW ∧ r.right > 0

def rectArea (r : Rect) : Int := (r.right - r.left) * (r.bottom - r.top)

/-- The largest-visible-image scan of `preloadLCPCandidate` over
`img[src]` elements: keep the first strict maximum of the on-screen
area. -/
def lcpScan (ctx : Ctx) : List Elem → Option Elem × Int → Option Elem × Int
  | [], acc => acc
  | e :: rest, (best, bestArea) =>
    if e.tag = "img" ∧ hasAttr e "src" then
      if lcpVisible ctx e.rect ∧ rectArea e.rect > bestArea then
        lcpScan ctx rest (some e, rectArea e.rect)
      else lcpScan ctx rest (best, bestArea)
    else lcpScan ctx rest (best, bestArea)

def mkPreloadLink (parse : String → Option Url) (h : String) : Elem :=
  { defaultElem with
    tag := "link", attrs := [("rel", "preload"), ("as", "image"), ("href", h)],
    hrefStr := h, parsedUrl := parse h }

def preloadExists (d : Doc) (h : String) : Bool :=
  d.elems.any (fun e => e.tag = "link" ∧ getAttrD e "rel" = "preload" ∧ getAttrD e "href" = h)

/-- `preloadLCPCandidate`: preload the largest visible image when its
area exceeds the threshold and no equivalent preload hint exists. -/
def preloadLCPCandidateF (parse : String → Option Url) (ctx : Ctx) (s : Settings) (d : Doc) : Doc :=
  if !s.preloadLCP then d
  else
    match lcpScan ctx d.elems (none, 0) with
    | (some img, area) =>
      if img.hrefStr ≠ "" ∧ area > 5000 then
        if preloadExists d img.hrefStr then d
        else { d with elems := d.elems ++ [mkPreloadLink parse img.hrefStr] }
      else d
    | (none, _) => d

/-- `injectFontDisplaySwap`: set `font-display: swap` on every
accessible font-face rule; cross-origin rule sets throw and are
skipped. -/
def injectFontDisplaySwapF (s : Settings) (d : Doc) : Doc :=
  if !s.fontDisplaySwap then d
  else { d with fontRules := d.fontRules.map (fun r => if r.1 then (r.1, "swap") else r) }

/-- Candidate selector of `injectContentVisibility`:
`section, article, main > div, [role="region"]`. -/
def cvCandidate (e : Elem) : Bool :=
  e.tag = "section" ∨ e.tag = "article" ∨ e.isMainChildDiv ∨ getAttrD e "role" = "region"

/-- Geometry filter of `injectContentVisibility`
(`rect.top > viewportHeight * 1.5 && rect.height > 100`); the
comparison with `1.5 * innerH` is written exactly over the integers
as `2 * top > 3 * innerH`. -/
def cvQualifies (ctx : Ctx) (e : Elem) : Bool :=
  cvCandidate e ∧ 2 * e.rect.top > 3 * ctx.innerH ∧ e.rect.bottom - e.rect.top > 100

/-- The tagging action of `injectContentVisibility` on one
candidate. -/
def cvStep (ctx : Ctx) (e : Elem) : Elem :=
  if cvQualifies ctx e then setAttr e "data-fc-cv" "" else e

/-- `injectContentVisibility`: guarded by the fixed style id, tag all
qualifying below-the-fold candidates with `data-fc-cv` and inject the
supporting style rule when at least one was tagged. -/
def injectContentVisibilityF (ctx : Ctx) (s : Settings) (d : Doc) : Doc :=
  if !s.contentVisibility then d
  else if (getElementById d cvStyleId).isSome then d
  else
    let tagged := d.elems.countP (fun e => cvQualifies ctx e)
    let elems' := d.elems.map (cvStep ctx)
    if tagged > 0 then { d with elems := elems' ++ [mkStyleElem cvStyleId] }
    else { d with elems := elems' }

/-- Body of `stabilizeImageLayout` for one `img` not yet claimed by
`data-fc-stabilized`: skip images that already carry both dimension
attributes; write the intrinsic dimensions and aspect ratio and claim
when they are known; otherwise register the one-shot load listener
(claim deferred to the callback). -/
def stabilizeStep (e : Elem) : Elem :=
  if hasAttr e "width" ∧ hasAttr e "height" then e
  else if e.naturalWidth ≠ 0 ∧ e.naturalHeight ≠ 0 then
    let e1 := setAttr (setAttr e "width" (toString e.naturalWidth)) "height" (toString e.naturalHeight)
    let e2 := { e1 with styleAspectRatio := some (toString e.naturalWidth ++ " / " ++ toString e.naturalHeight) }
    setAttr e2 "data-fc-stabilized" ""
  else { e with pendingStabilize := true }

def stabilizeGate (e : Elem) : Elem :=
  if e.tag = "img" ∧ ¬ hasAttr e "data-fc-stabilized" then stabilizeStep e else e

def stabilizeImageLayoutF (s : Settings) (d : Doc) : Doc :=
  if !s.stabilizeLayout then d
  else { d with elems := d.elems.map stabilizeGate }

/-- `handleNewStylesheet` on one link element: applied only to
stylesheet links with an href, not yet claimed, not yet loaded and
with no targeted media restriction; claims with `data-fc-nb`, switches
`media` to "print" and registers the one-shot load listener. -/
def handleNewStylesheetF (s : Settings) (e : Elem) : Elem :=
  if !s.nonBlockingCSS then e
  else if getAttrD e "rel" ≠ "stylesheet" ∨ e.hrefStr = "" then e
  else if hasAttr e "data-fc-nb" then e
  else if e.sheetLoaded then e
  else if getAttrD e "media" ≠ "all" ∧ getAttrD e "media" ≠ "" then e
  else
    let e1 := setAttr (setAttr e "data-fc-nb" "") "media" "print"
    { e1 with pendingMediaRestore := true }

/-- The one-shot load callback registered by `handleNewStylesheet`:
`link.media = 'all'`. -/
def fireLoadRestore (e : Elem) : Elem :=
  if e.pendingMediaRestore then
    let e1 := setAttr e "media" "all"
    { e1 with pendingMediaRestore := false }
  else e

/-- Remove the first element with the given id attribute, if any
(models `getElementById(id)` followed by `el.remove()`). -/
def removeFirstById (x : String) : List Elem → List Elem
  | [] => []
  | e :: rest => if getAttrD e "id" = x then rest else e :: removeFirstById x rest

/-- `removeInjectedStyles`: remove the two Global Injected Artifacts
by id and strip every `data-fc-cv` attribute. -/
def removeInjectedStylesF (d : Doc) : Doc :=
  let l1 := removeFirstById animStyleId d.elems
  let l2 := removeFirstById cvStyleId l1
  { d with elems := l2.map (fun e => removeAttr e "data-fc-cv") }

/-- `onDOMContentLoaded`: the content-ready executor group, in source
order. -/
def onDOMContentLoadedF (parse : String → Option Url) (ctx : Ctx) (s : Settings) (d : Doc) : Doc :=
  stabilizeImageLayoutF s
    (injectContentVisibilityF ctx s
      (injectFontDisplaySwapF s
        (preloadLCPCandidateF parse ctx s
          (setupDNSPrefetchF ctx s
            (optimizeImageLoadingF ctx s
              (reduceMediaPreloadF s
                (disableAutoplayF s
                  (setupLazyLoadIframesF s
                    (setupLazyLoadingF s d)))))))))

/-- The full optimization pass over the document state: the
document-start executor (animation suppression), the content-ready
group, then the load-phase document work (the second layout
stabilization sweep of `onLoad`). -/
def allPhasesPass (parse : String → Option Url) (ctx : Ctx) (s : Settings) (d : Doc) : Doc :=
  stabilizeImageLayoutF s (onDOMContentLoadedF parse ctx s (disableAnimationsF s d))

-- =========================================================================
--  content.js: link prefetch (IntersectionObserver + requestIdleCallback)
-- =========================================================================

/-- The state-changing-path pattern of `prefetchVisibleLinks`
(`/\/(logout|signout|delete|remove|unsubscribe|revoke)/i` on the
pathname): case-insensitive containment of one of the slash-prefixed
words. -/
def matchesStateChanging (path : String) : Bool :=
  let p := strLower path
  strContains p "/logout" ∨ strContains p "/signout" ∨ strContains p "/delete" ∨
  strContains p "/remove" ∨ strContains p "/unsubscribe" ∨ strContains p "/revoke"

/-- State of the link-prefetch executor: `active` records that
`prefetchVisibleLinks` has set up an IntersectionObserver;
`prefetched` is its Set of hrefs (insertion order); `pendingIdle`
holds the hrefs whose injection is scheduled via
`requestIdleCallback`; `injected` records every prefetch hint the
executor actually injected. -/
structure PrefetchSt where
  active : Bool
  prefetched : List String
  pendingIdle : List String
  injected : List String
deriving DecidableEq

def emptyPrefetch : PrefetchSt :=
  { active := false, prefetched := [], pendingIdle := [], injected := [] }

/-- The IntersectionObserver callback of `prefetchVisibleLinks` for
one intersecting entry with resolved href `href`: re-parse the href,
apply the exclusion filter (cross-origin, same path, non-HTTP, query
string, state-changing path) and schedule the idle-time injection when
it passes.  Intersection events are admitted for arbitrary hrefs at
arbitrary times, a superset of the callbacks a real observer can
deliver, so safety properties proved over this model cover every real
trace. -/
def prefetchIntersectStep (parse : String → Option Url) (ctx : Ctx) (href : String)
    (ps : PrefetchSt) : PrefetchSt :=
  if ¬ ps.active then ps
  else if ps.prefetched.length ≥ 5 then ps
  else if href = "" ∨ href ∈ ps.prefetched then ps
  else
    match parse href with
    | none => ps
    | some u =>
      if u.origin ≠ ctx.origin then ps
      else if u.pathname = ctx.pathname then ps
      else if ¬ strStartsWith u.protocol "http" then ps
      else if u.search ≠ "" then ps
      else if matchesStateChanging u.pathname then ps
      else { ps with pendingIdle := ps.pendingIdle ++ [href] }

def mkPrefetchLink (parse : String → Option Url) (h : String) : Elem :=
  { defaultElem with
    tag := "link", attrs := [("rel", "prefetch"), ("href", h)],
    hrefStr := h, parsedUrl := parse h }

/-- The idle callback scheduled by `prefetchVisibleLinks` for the
`i`-th pending href: re-check the cap, inject the prefetch hint and
record the href in the Set. -/
def prefetchIdleStep (i : Nat) (ps : PrefetchSt) : PrefetchSt × Option String :=
  match ps.pendingIdle.get? i with
  | none => (ps, none)
  | some href =>
    let rest := ps.pendingIdle.eraseIdx i
    if ps.prefetched.length ≥ 5 then ({ ps with pendingIdle := rest }, none)
    else
      ({ ps with
          pendingIdle := rest,
          prefetched := insertOnceEnd ps.prefetched href,
          injected := ps.injected ++ [href] }, some href)

-- =========================================================================
--  content.js: lifecycle state machine
-- =========================================================================

inductive CReady where
  | loading
  | interactive
  | complete
deriving DecidableEq

/-- State of one content-script instance: the document, the
module-level mutable bindings (`settings`, `optimizationsApplied`,
`cleanupScheduled`, observer handle, context validity), whether the
`DOMContentLoaded`/`load` listeners registered by
`applyOptimizations` are still pending, the document readiness and
the link-prefetch state. -/
structure CState where
  doc : Doc
  settings : Option Settings
  optimizationsApplied : Bool
  observerActive : Bool
  cleanupScheduled : Bool
  dclListener : Bool
  loadListener : Bool
  readyState : CReady
  contextValid : Bool
  prefetch : PrefetchSt
deriving DecidableEq

/-- `injectPageScript`: appends the page-context script element (its
`onload` self-removal is not modelled; the element has a
`chrome-extension:` URL, which every URL-inspecting executor
excludes, so keeping it is observationally harmless). -/
def injectPageScriptF (valid : Bool) (d : Doc) : Doc :=
  if valid then
    { d with
      elems := d.elems ++
        [{ defaultElem with
           tag := "script", attrs := [("src", "chrome-extension://fc/injected.js")],
           hrefStr := "chrome-extension://fc/injected.js",
           parsedUrl := some
             { origin := "chrome-extension://fc", protocol := "chrome-extension:",
               pathname := "/injected.js", search := "" } }] }
  else d

/-- The deferred batch body scheduled by `scheduleCleanup`, in source
order. -/
def cleanupPassF (ctx : Ctx) (s : Settings) (d : Doc) : Doc :=
  stabilizeImageLayoutF s
    (reduceMediaPreloadF s
      (disableAutoplayF s
        (optimizeImageLoadingF ctx s
          (setupLazyLoadIframesF s
            (setupLazyLoadingF s d)))))

/-- `applyOptimizations`: guarded by the applied latch, the presence
of settings and the master flag; runs the document-start executors,
then the phase groups that are already reachable for the current
readiness (registering listeners for the rest), and starts the
mutation observer. -/
def applyOpt (parse : String → Option Url) (ctx : Ctx) (st : CState) : CState :=
  match st.settings with
  | none => st
  | some s =>
    if st.optimizationsApplied ∨ s.enabled = false then st
    else
      let d0 := disableAnimationsF s (injectPageScriptF st.contextValid st.doc)
      match st.readyState with
      | CReady.loading =>
        { st with
          optimizationsApplied := true, doc := d0,
          dclListener := true, loadListener := true, observerActive := true }
      | CReady.interactive =>
        { st with
          optimizationsApplied := true, doc := onDOMContentLoadedF parse ctx s d0,
          loadListener := true, observerActive := true }
      | CReady.complete =>
        let d1 := stabilizeImageLayoutF s (onDOMContentLoadedF parse ctx s d0)
        { st with
          optimizationsApplied := true, doc := d1, observerActive := true,
          prefetch := { st.prefetch with active := st.prefetch.active ∨ s.prefetchLinks } }

/-- Events driving one content-script instance: the `GET_SETTINGS`
response, the `SETTINGS_UPDATED` and `REFRESH_OPTIMIZATIONS`
messages, document readiness events, a structural mutation batch (the
page appends `added`), the idle callback of `scheduleCleanup`, a
link-intersection callback, an idle callback of the link-prefetch
executor, and extension-context invalidation. -/
inductive Ev where
  | initSettings (s : Settings)
  | settingsUpdated (s : Settings)
  | refresh
  | domContentLoaded
  | loadFired
  | mutationBatch (added : List Elem)
  | idleCleanupFire
  | linkIntersect (href : String)
  | prefetchIdleFire (i : Nat)
  | invalidateContext

def stepEv (parse : String → Option Url) (ctx : Ctx) (st : CState) (ev : Ev) : CState :=
  match ev with
  | Ev.initSettings s =>
    if ¬ st.contextValid then st
    else applyOpt parse ctx { st with settings := some s }
  | Ev.settingsUpdated s =>
    if ¬ st.contextValid then st
    else
      let st1 := { st with settings := some s, optimizationsApplied := false }
      if s.enabled then applyOpt parse ctx st1
      else { st1 with observerActive := false, doc := removeInjectedStylesF st1.doc }
  | Ev.refresh =>
    if ¬ st.contextValid then st
    else applyOpt parse ctx { st with optimizationsApplied := false }
  | Ev.domContentLoaded =>
    let st1 := { st with readyState := CReady.interactive }
    if st1.dclListener then
      match st1.settings with
      | some s => { st1 with doc := onDOMContentLoadedF parse ctx s st1.doc, dclListener := false }
      | none => { st1 with dclListener := false }
    else st1
  | Ev.loadFired =>
    let st1 := { st with readyState := CReady.complete }
    if st1.loadListener then
      match st1.settings with
      | some s =>
        { st1 with
          doc := stabilizeImageLayoutF s st1.doc, loadListener := false,
          prefetch := { st1.prefetch with active := st1.prefetch.active ∨ s.prefetchLinks } }
      | none => { st1 with loadListener := false }
    else st1
  | Ev.mutationBatch added =>
    let processed :=
      if st.observerActive ∧ st.contextValid then
        match st.settings with
        | some s => added.map (fun e => if e.tag = "link" then handleNewStylesheetF s e else e)
        | none => added
      else added
    let sched :=
      if added ≠ [] ∧ st.observerActive ∧ st.contextValid ∧ ¬ st.cleanupScheduled then true
      else st.cleanupScheduled
    { st with doc := { st.doc with elems := st.doc.elems ++ processed }, cleanupScheduled := sched }
  | Ev.idleCleanupFire =>
    if ¬ st.cleanupScheduled then st
    else
      let st1 := { st with cleanupScheduled := false }
      if ¬ st1.contextValid then st1
      else
        match st1.settings with
        | some s => { st1 with doc := cleanupPassF ctx s st1.doc }
        | none => st1
  | Ev.linkIntersect href =>
    { st with prefetch := prefetchIntersectStep parse ctx href st.prefetch }
  | Ev.prefetchIdleFire i =>
    match prefetchIdleStep i st.prefetch with
    | (ps, some href) =>
      { st with prefetch := ps, doc := { st.doc with elems := st.doc.elems ++ [mkPrefetchLink parse href] } }
    | (ps, none) => { st with prefetch := ps }
  | Ev.invalidateContext => { st with contextValid := false }

def runEvents (parse : String → Option Url) (ctx : Ctx) (st : CState) (evts : List Ev) : CState :=
  evts.foldl (stepEv parse ctx) st

-- =========================================================================
--  content.js: scheduleCleanup timing model
-- =========================================================================

/-- Timed state of the `scheduleCleanup` coalescer.  `valid` is the
extension-context validity consulted by `isContextValid`;
`scheduled` is the `cleanupScheduled` flag; `deadline` is the
absolute time bound `t + 200` that the `requestIdleCallback` timeout
option imposes on the pending batch; `schedCount` counts scheduling
actions and `fired` counts executed batches. -/
structure SchedSt where
  valid : Bool
  scheduled : Bool
  deadline : Option Nat
  schedCount : Nat
  fired : Nat
deriving DecidableEq

/-- `scheduleCleanup` invoked at time `t`: a no-op when a batch is
already pending or the context is invalid; otherwise schedules the
single idle batch with the 200 ms timeout bound. -/
def signalAt (t : Nat) (st : SchedSt) : SchedSt :=
  if st.scheduled ∨ st.valid = false then st
  else
    { st with scheduled := true, deadline := some (t + 200), schedCount := st.schedCount + 1 }

/-- The idle callback firing: resets the flag and executes the batch
(the document effect of the batch is `cleanupPassF`; this timed model
tracks only the counts). -/
def idleFireAt (st : SchedSt) : SchedSt :=
  if st.scheduled then
    { st with scheduled := false, deadline := none, fired := st.fired + 1 }
  else st

-- =========================================================================
--  injected.js: script deferral and timer throttling
-- =========================================================================

/-- The replacement element built by `deferScript`: same src, the
defer flag, and every attribute except `src`, `defer` and `type`
copied over. -/
def mkDeferred (e : Elem) : Elem :=
  { defaultElem with
    tag := "script",
    attrs := [("src", e.hrefStr), ("defer", "")] ++
      e.attrs.filter (fun p => p.1 ≠ "src" ∧ p.1 ≠ "defer" ∧ p.1 ≠ "type"),
    hrefStr := e.hrefStr, parsedUrl := e.parsedUrl }

/-- `deferScript` applied to the element at position `i`: the chain of
early returns (no src; async/defer/module; nomodule; nonce/integrity;
cross-origin or unparsable src), then `replaceChild` of the deferred
copy. -/
def deferScriptF (ctx : Ctx) (d : Doc) (i : Nat) : Doc :=
  match d.elems.get? i with
  | none => d
  | some e =>
    if e.hrefStr = "" then d
    else if hasAttr e "async" ∨ hasAttr e "defer" ∨ getAttrD e "type" = "module" then d
    else if hasAttr e "nomodule" then d
    else if getAttrD e "nonce" ≠ "" ∨ hasAttr e "integrity" then d
    else
      match e.parsedUrl with
      | none => d
      | some u =>
        if u.origin ≠ ctx.origin then d
        else { d with elems := d.elems.set i (mkDeferred e) }

/-- JavaScript `delay || 0`: undefined and 0 (the falsy numbers in
range) become 0, every other integer passes through. -/
def jsOrZero (d : Option Int) : Int :=
  match d with
  | none => 0
  | some v => if v = 0 then 0 else v

/-- The patched `setInterval` forwards to the original: same callback,
`Math.max(delay || 0, 100)`, same extra arguments. -/
def patchedSetIntervalCall {α β : Type} (cb : α) (delay : Option Int) (args : List β) :
    α × Int × List β :=
  (cb, max (jsOrZero delay) 100, args)

/-- The patched `setTimeout` forwards to the original: same callback,
`Math.max(delay || 0, 10)`, same extra arguments. -/
def patchedSetTimeoutCall {α β : Type} (cb : α) (delay : Option Int) (args : List β) :
    α × Int × List β :=
  (cb, max (jsOrZero delay) 10, args)

-- =========================================================================
--  Specification-side definitions (for refinement comparisons)
-- =========================================================================

/-- The specification's notion for the image-priority hint: the
bounding box intersects the current viewport, i.e. overlaps the
visible rectangle in both dimensions (this is also exactly the
visibility test that `preloadLCPCandidate` uses). -/
def intersectsViewport (ctx : Ctx) (r : Rect) : Bool :=
  r.top < ctx.innerH ∧ r.bottom > 0 ∧ r.left < ctx.innerW ∧ r.right > 0

-- =========================================================================
--  Basic lemmas about the attribute model
-- =========================================================================

theorem getAttrList_set_self (k v : String) :
    ∀ l, getAttrList k (setAttrList k v l) = some v
  | [] => by simp [setAttrList, getAttrList]
  | (k', v') :: rest => by
    by_cases h : k' = k
    · simp [setAttrList, h, getAttrList]
    · simp [setAttrList, h, getAttrList, getAttrList_set_self k v rest]

theorem getAttrList_set_ne (k v m : String) (hmk : m ≠ k) :
    ∀ l, getAttrList m (setAttrList k v l) = getAttrList m l
  | [] => by simp [setAttrList, getAttrList, Ne.symm hmk]
  | (k', v') :: rest => by
    by_cases h : k' = k
    · subst h
      simp [setAttrList, getAttrList, Ne.symm hmk]
    · by_cases h2 : k' = m
      · subst h2
        simp [setAttrList, h, getAttrList]
      · simp [setAttrList, h, getAttrList, h2, getAttrList_set_ne k v m hmk rest]

theorem getAttrList_remove_self (k : String) (l : List (String × String)) :
    getAttrList k (removeAttrList k l) = none := by
  induction l with
  | nil => simp [removeAttrList, getAttrList]
  | cons p rest ih =>
    by_cases h : p.1 = k
    · simpa [removeAttrList, h] using ih
    · simpa [removeAttrList, getAttrList, h] using ih

theorem getAttrList_remove_ne (k m : String) (hmk : m ≠ k) :
    ∀ l, getAttrList m (removeAttrList k l) = getAttrList m l
  | [] => by simp [removeAttrList, getAttrList]
  | (k', v') :: rest => by
    by_cases h : k' = k
    · subst h
      simp [removeAttrList, getAttrList, Ne.symm hmk, getAttrList_remove_ne k' m hmk rest]
    · by_cases h2 : k' = m
      · subst h2
        simp [removeAttrList, getAttrList, h]
      · simp [removeAttrList, getAttrList, h, h2, getAttrList_remove_ne k m hmk rest]

theorem getAttr_setAttr_self (e : Elem) (k v : String) :
    getAttr (setAttr e k v) k = some v := by
  simp [getAttr, setAttr, getAttrList_set_self]

theorem getAttr_setAttr_ne (e : Elem) (k v m : String) (hmk : m ≠ k) :
    getAttr (setAttr e k v) m = getAttr e m := by
  simp [getAttr, setAttr, getAttrList_set_ne k v m hmk]

theorem hasAttr_setAttr_self (e : Elem) (k v : String) :
    hasAttr (setAttr e k v) k = true := by
  simp [hasAttr, getAttr_setAttr_self]

theorem hasAttr_setAttr_ne (e : Elem) (k v m : String) (hmk : m ≠ k) :
    hasAttr (setAttr e k v) m = hasAttr e m := by
  simp [hasAttr, getAttr_setAttr_ne e k v m hmk]

theorem getAttr_removeAttr_ne (e : Elem) (k m : String) (hmk : m ≠ k) :
    getAttr (removeAttr e k) m = getAttr e m := by
  simp [getAttr, removeAttr, getAttrList_remove_ne k m hmk]

theorem hasAttr_removeAttr_ne (e : Elem) (k m : String) (hmk : m ≠ k) :
    hasAttr (removeAttr e k) m = hasAttr e m := by
  simp [hasAttr, getAttr_removeAttr_ne e k m hmk]

theorem getAttrD_setAttr_ne (e : Elem) (k v m : String) (hmk : m ≠ k) :
    getAttrD (setAttr e k v) m = getAttrD e m := by
  simp [getAttrD, getAttr_setAttr_ne e k v m hmk]

theorem getAttrD_removeAttr_ne (e : Elem) (k m : String) (hmk : m ≠ k) :
    getAttrD (removeAttr e k) m = getAttrD e m := by
  simp [getAttrD, getAttr_removeAttr_ne e k m hmk]

theorem jsOrZero_eq_getD (d : Option Int) : jsOrZero d = d.getD 0 := by
  cases d with
  | none => rfl
  | some v =>
    by_cases hv : v = 0 <;> simp [jsOrZero, hv]

-- =========================================================================
--  Claim theorems
-- =========================================================================

/-- C10: when timer throttling is enabled, the patched `setTimeout`
and `setInterval` pass the callback and the extra arguments through to
the originals unchanged and never decrease the requested delay; the
effective delay is `max(requested, 10)` for `setTimeout` and
`max(requested, 100)` for `setInterval`, an absent delay counting as
0. -/
theorem claim_c10_timer_throttle {α β : Type} (cb : α) (delay : Option Int) (args : List β) :
    patchedSetTimeoutCall cb delay args = (cb, max (delay.getD 0) 10, args) ∧
    patchedSetIntervalCall cb delay args = (cb, max (delay.getD 0) 100, args) ∧
    delay.getD 0 ≤ (patchedSetTimeoutCall cb delay args).2.1 ∧
    delay.getD 0 ≤ (patchedSetIntervalCall cb delay args).2.1 := by
  refine ⟨?_, ?_, ?_, ?_⟩ <;>
    simp [patchedSetTimeoutCall, patchedSetIntervalCall, jsOrZero_eq_getD, le_max_left]

/-- C9: `deferScript` leaves the document unchanged for every script
element that has no src, or carries an `async`, `defer`, `nomodule`
or `integrity` attribute, a module type, a nonce, or whose src does
not parse or parses to an origin different from the page origin. -/
theorem claim_c9_defer_guards (ctx : Ctx) (d : Doc) (i : Nat) (e : Elem)
    (hi : d.elems.get? i = some e)
    (hg : e.hrefStr = "" ∨ hasAttr e "async" = true ∨ hasAttr e "defer" = true ∨
      getAttrD e "type" = "module" ∨ hasAttr e "nomodule" = true ∨
      getAttrD e "nonce" ≠ "" ∨ hasAttr e "integrity" = true ∨
      e.parsedUrl = none ∨ (∃ u, e.parsedUrl = some u ∧ u.origin ≠ ctx.origin)) :
    deferScriptF ctx d i = d := by
  unfold deferScriptF
  rw [hi]
  rcases hg with h | h | h | h | h | h | h | h | ⟨u, hu, ho⟩
  · simp [h]
  · simp [h]
  · simp [h]
  · simp [h]
  · simp [h]
  · simp [h]
  · simp [h]
  · simp [h]
  · simp [hu, ho]

def c9ctx : Ctx := { innerW := 800, innerH := 600, origin := "https://page.example", pathname := "/" }

/-- A parser-inserted script element carrying an `async` attribute. -/
def c9script : Elem :=
  { defaultElem with
    tag := "script", attrs := [("async", ""), ("src", "/app.js")],
    hrefStr := "https://page.example/app.js",
    parsedUrl := some
      { origin := "https://page.example", protocol := "https:",
        pathname := "/app.js", search := "" } }

def c9doc : Doc := { elems := [c9script], fontRules := [] }

/-- C9 witness: `deferScript` on a concrete async script leaves the
document unchanged. -/
theorem claim_c9_defer_guards_witness :
    c9doc.elems.get? 0 = some c9script ∧ hasAttr c9script "async" = true ∧
    deferScriptF c9ctx c9doc 0 = c9doc :=
  ⟨by decide, by decide,
    claim_c9_defer_guards c9ctx c9doc 0 c9script (by decide) (Or.inr (Or.inl (by decide)))⟩

/-- What one visit of the image priority/decoding executor does to an
unclaimed image: claims it, sets async decoding when unset, leaves a
present decoding untouched, chooses the priority hint from the
vertical viewport test when unset and leaves a present priority
untouched. -/
theorem optImgStep_spec (ctx : Ctx) (e : Elem) :
    hasAttr (optImgStep ctx e) "data-fc-optimized" = true ∧
    (hasAttr e "decoding" = false → getAttr (optImgStep ctx e) "decoding" = some "async") ∧
    (hasAttr e "decoding" = true → getAttr (optImgStep ctx e) "decoding" = getAttr e "decoding") ∧
    (hasAttr e "fetchpriority" = false →
      getAttr (optImgStep ctx e) "fetchpriority" =
        some (if e.rect.top < ctx.innerH ∧ e.rect.bottom > 0 then "high" else "low")) ∧
    (hasAttr e "fetchpriority" = true →
      getAttr (optImgStep ctx e) "fetchpriority" = getAttr e "fetchpriority") := by
  unfold optImgStep
  by_cases hdec : hasAttr e "decoding" <;> by_cases hfp : hasAttr e "fetchpriority" <;>
    by_cases hvp : e.rect.top < ctx.innerH ∧ e.rect.bottom > 0 <;>
    simp [hdec, hfp, hvp, hasAttr_setAttr_ne, hasAttr_setAttr_self,
      getAttr_setAttr_ne, getAttr_setAttr_self]

/-- C4 (amended): one run of the image priority/decoding executor on a
not-yet-claimed image claims it, sets `decoding="async"` when no
decoding attribute is present, and, when no `fetchpriority` is
present, sets it to "high" exactly when the image's bounding box
vertically overlaps the viewport (`rect.top < innerHeight` and
`rect.bottom > 0`), irrespective of horizontal position, and "low"
otherwise; pre-existing decoding and fetchpriority attributes are left
unchanged. -/
theorem claim_c4_amended (ctx : Ctx) (s : Settings) (d : Doc) (i : Nat)
    (hs : s.optimizeImagePriority = true)
    (hi : i < d.elems.length)
    (hlen : i < (optimizeImageLoadingF ctx s d).elems.length)
    (himg : (d.elems.get ⟨i, hi⟩).tag = "img")
    (hnc : hasAttr (d.elems.get ⟨i, hi⟩) "data-fc-optimized" = false) :
    (optimizeImageLoadingF ctx s d).elems.get ⟨i, hlen⟩ =
      optImgStep ctx (d.elems.get ⟨i, hi⟩) ∧
    hasAttr ((optimizeImageLoadingF ctx s d).elems.get ⟨i, hlen⟩) "data-fc-optimized" = true ∧
    (hasAttr (d.elems.get ⟨i, hi⟩) "decoding" = false →
      getAttr ((optimizeImageLoadingF ctx s d).elems.get ⟨i, hlen⟩) "decoding" = some "async") ∧
    (hasAttr (d.elems.get ⟨i, hi⟩) "decoding" = true →
      getAttr ((optimizeImageLoadingF ctx s d).elems.get ⟨i, hlen⟩) "decoding" =
        getAttr (d.elems.get ⟨i, hi⟩) "decoding") ∧
    (hasAttr (d.elems.get ⟨i, hi⟩) "fetchpriority" = false →
      getAttr ((optimizeImageLoadingF ctx s d).elems.get ⟨i, hlen⟩) "fetchpriority" =
        some (if (d.elems.get ⟨i, hi⟩).rect.top < ctx.innerH ∧
            (d.elems.get ⟨i, hi⟩).rect.bottom > 0 then "high" else "low")) ∧
    (hasAttr (d.elems.get ⟨i, hi⟩) "fetchpriority" = true →
      getAttr ((optimizeImageLoadingF ctx s d).elems.get ⟨i, hlen⟩) "fetchpriority" =
        getAttr (d.elems.get ⟨i, hi⟩) "fetchpriority") := by
  have himg2 : (d.elems[i]).tag = "img" := himg
  have hnc2 : hasAttr (d.elems[i]) "data-fc-optimized" = false := hnc
  have hstep : (optimizeImageLoadingF ctx s d).elems.get ⟨i, hlen⟩ =
      optImgStep ctx (d.elems.get ⟨i, hi⟩) := by
    simp [optimizeImageLoadingF, hs, optImgGate, himg2, hnc2]
  refine ⟨hstep, ?_, ?_, ?_, ?_, ?_⟩ <;> rw [hstep]
  · exact (optImgStep_spec ctx _).1
  · exact (optImgStep_spec ctx _).2.1
  · exact (optImgStep_spec ctx _).2.2.1
  · exact (optImgStep_spec ctx _).2.2.2.1
  · exact (optImgStep_spec ctx _).2.2.2.2

def c4ctx : Ctx := { innerW := 800, innerH := 600, origin := "https://page.example", pathname := "/" }

/-- An image that vertically overlaps the viewport band but lies
entirely to the right of the visible area. -/
def c4img : Elem :=
  { defaultElem with tag := "img", rect := { top := 0, bottom := 100, left := 2000, right := 2100 } }

/-- C4 counterexample: on a concrete image whose box does not
intersect the viewport (it is horizontally off-screen), the executor
still assigns `fetchpriority="high"`, because the code only tests
vertical overlap; the claim's "exactly when the bounding box
intersects the current viewport" is therefore false. -/
theorem claim_c4_counterexample :
    getAttr (optImgStep c4ctx c4img) "fetchpriority" = some "high" ∧
    intersectsViewport c4ctx c4img.rect = false := by
  constructor
  · decide
  · decide

def c4settings : Settings :=
  { enabled := true, disableAnimations := false, lazyLoadImages := false,
    disableAutoplay := false, throttleTimers := false, prefetchDNS := false,
    preloadLCP := false, prefetchLinks := false, optimizeImagePriority := true,
    lazyLoadIframes := false, reduceMediaPreload := false, fontDisplaySwap := false,
    contentVisibility := false, stabilizeLayout := false, nonBlockingCSS := false,
    deferScripts := false, passiveListeners := false }

def c4doc : Doc := { elems := [c4img], fontRules := [] }

/-- C4 witness: the amended statement applied to a concrete unclaimed
image. -/
theorem claim_c4_amended_witness :
    c4settings.optimizeImagePriority = true ∧
    (c4doc.elems.get ⟨0, by decide⟩).tag = "img" ∧
    hasAttr (c4doc.elems.get ⟨0, by decide⟩) "data-fc-optimized" = false ∧
    hasAttr ((optimizeImageLoadingF c4ctx c4settings c4doc).elems.get ⟨0, by decide⟩)
      "data-fc-optimized" = true :=
  ⟨rfl, by decide, by decide,
    (claim_c4_amended c4ctx c4settings c4doc 0 rfl (by decide) (by decide)
      (by decide) (by decide)).2.1⟩

/-- C5 (amended): the non-blocking stylesheet mitigation is applied
only to stylesheet link elements with an href that are not yet
loaded, not yet claimed and have no targeted media restriction; when
applied it claims the node with `data-fc-nb`, switches `media` to the
non-applicable value "print", and the one-shot load callback sets
`media` to "all" — which equals the original value when the media was
"all", and is the equivalent non-restrictive value (not a literal
restoration) when the media attribute was absent or empty. -/
theorem claim_c5_amended (s : Settings) (e : Elem) :
    ((s.nonBlockingCSS = false ∨ getAttrD e "rel" ≠ "stylesheet" ∨ e.hrefStr = "" ∨
      hasAttr e "data-fc-nb" = true ∨ e.sheetLoaded = true ∨
      (getAttrD e "media" ≠ "all" ∧ getAttrD e "media" ≠ "")) →
      handleNewStylesheetF s e = e) ∧
    (s.nonBlockingCSS = true → getAttrD e "rel" = "stylesheet" → e.hrefStr ≠ "" →
      hasAttr e "data-fc-nb" = false → e.sheetLoaded = false →
      (getAttrD e "media" = "all" ∨ getAttrD e "media" = "") →
      hasAttr (handleNewStylesheetF s e) "data-fc-nb" = true ∧
      getAttr (handleNewStylesheetF s e) "media" = some "print" ∧
      (handleNewStylesheetF s e).pendingMediaRestore = true ∧
      getAttr (fireLoadRestore (handleNewStylesheetF s e)) "media" = some "all") := by
  constructor
  · intro hg
    unfold handleNewStylesheetF
    rcases hg with h | h | h | h | h | ⟨h1, h2⟩
    · simp [h]
    · simp [h]
    · simp [h]
    · simp [h]
    · simp [h]
    · simp [h1, h2]
  · intro h1 h2 h3 h4 h5 h6
    have happ : handleNewStylesheetF s e =
        (let e1 := setAttr (setAttr e "data-fc-nb" "") "media" "print"
         { e1 with pendingMediaRestore := true }) := by
      unfold handleNewStylesheetF
      rcases h6 with h6 | h6 <;> simp [h1, h2, h3, h4, h5, h6]
    rw [happ]
    refine ⟨?_, ?_, rfl, ?_⟩
    · show hasAttr (setAttr (setAttr e "data-fc-nb" "") "media" "print") "data-fc-nb" = true
      rw [hasAttr_setAttr_ne _ _ _ _ (by decide)]
      exact hasAttr_setAttr_self e "data-fc-nb" ""
    · exact getAttr_setAttr_self _ "media" "print"
    · show getAttr (fireLoadRestore _) "media" = some "all"
      unfold fireLoadRestore
      simp [getAttr, setAttr, getAttrList_set_self]

def c5settings : Settings :=
  { c4settings with optimizeImagePriority := false, nonBlockingCSS := true }

/-- A stylesheet link without a media attribute that has not finished
loading. -/
def c5link : Elem :=
  { defaultElem with
    tag := "link", attrs := [("rel", "stylesheet"), ("href", "/s.css")],
    hrefStr := "https://page.example/s.css" }

/-- C5 counterexample: a mitigated stylesheet link whose media
attribute was originally absent ends, after the one-shot load
callback, with `media="all"`; its media is not restored to its
original (absent/empty) value, refuting the claim's restoration
clause at a concrete input. -/
theorem claim_c5_counterexample :
    getAttr c5link "media" = none ∧
    (handleNewStylesheetF c5settings c5link).pendingMediaRestore = true ∧
    getAttr (fireLoadRestore (handleNewStylesheetF c5settings c5link)) "media" = some "all" := by
  refine ⟨by decide, by decide, by decide⟩

/-- C5 witness: the amended statement applied to the concrete pending
stylesheet link. -/
theorem claim_c5_amended_witness :
    c5settings.nonBlockingCSS = true ∧ getAttrD c5link "rel" = "stylesheet" ∧
    hasAttr c5link "data-fc-nb" = false ∧ c5link.sheetLoaded = false ∧
    (hasAttr (handleNewStylesheetF c5settings c5link) "data-fc-nb" = true ∧
      getAttr (handleNewStylesheetF c5settings c5link) "media" = some "print" ∧
      (handleNewStylesheetF c5settings c5link).pendingMediaRestore = true ∧
      getAttr (fireLoadRestore (handleNewStylesheetF c5settings c5link)) "media" = some "all") :=
  ⟨rfl, by decide, by decide, rfl,
    (claim_c5_amended c5settings c5link).2 rfl (by decide) (by decide) (by decide) rfl
      (Or.inr (by decide))⟩

theorem foldl_signalAt_of_scheduled (ts : List Nat) (st : SchedSt) (h : st.scheduled = true) :
    ts.foldl (fun a t => signalAt t a) st = st := by
  induction ts generalizing st with
  | nil => rfl
  | cons t rest ih =>
    have hstep : signalAt t st = st := by
      simp [signalAt, h]
    simp [List.foldl_cons, hstep, ih st h]

/-- C7: for any nonempty run of mutation-batch signals
(`scheduleCleanup` invocations) arriving before an idle opportunity,
exactly one idle batch is scheduled (the scheduling count rises by
exactly one, the later signals being no-ops on the already-set flag)
and executes exactly once when the idle callback fires; the pending
batch carries the deadline `t1 + 200` of the first signal, and the
`requestIdleCallback` timeout contract makes the host run the
callback no later than that deadline. -/
theorem claim_c7_coalescing (t1 : Nat) (rest : List Nat) (st0 : SchedSt)
    (hv : st0.valid = true) (hs : st0.scheduled = false) :
    ((t1 :: rest).foldl (fun a t => signalAt t a) st0).schedCount = st0.schedCount + 1 ∧
    ((t1 :: rest).foldl (fun a t => signalAt t a) st0).scheduled = true ∧
    ((t1 :: rest).foldl (fun a t => signalAt t a) st0).deadline = some (t1 + 200) ∧
    ((t1 :: rest).foldl (fun a t => signalAt t a) st0).fired = st0.fired ∧
    (idleFireAt ((t1 :: rest).foldl (fun a t => signalAt t a) st0)).fired = st0.fired + 1 ∧
    (idleFireAt ((t1 :: rest).foldl (fun a t => signalAt t a) st0)).scheduled = false := by
  have hstep : signalAt t1 st0 =
      { st0 with scheduled := true, deadline := some (t1 + 200), schedCount := st0.schedCount + 1 } := by
    simp [signalAt, hs, hv]
  have hfold : (t1 :: rest).foldl (fun a t => signalAt t a) st0 =
      { st0 with scheduled := true, deadline := some (t1 + 200), schedCount := st0.schedCount + 1 } := by
    rw [List.foldl_cons, hstep]
    exact foldl_signalAt_of_scheduled rest _ rfl
  rw [hfold]
  refine ⟨rfl, rfl, rfl, rfl, ?_, ?_⟩ <;> simp [idleFireAt]

def c7st0 : SchedSt :=
  { valid := true, scheduled := false, deadline := none, schedCount := 0, fired := 0 }

/-- The hint pairs injected for a list of accepted origins, in
order. -/
def hintPairs : List String → List Elem
  | [] => []
  | o :: rest => hintPair o ++ hintPairs rest

theorem insertOnceEnd_nodup (l : List String) (x : String) (h : l.Nodup) :
    (insertOnceEnd l x).Nodup := by
  unfold insertOnceEnd
  split
  · exact h
  next hx =>
    refine List.nodup_append.mpr ⟨h, List.nodup_singleton x, ?_⟩
    intro a ha hax
    have hae : a = x := by simpa using hax
    exact hx (hae ▸ ha)

theorem foldl_insertOnceEnd_nodup (xs : List String) :
    ∀ acc, acc.Nodup → (xs.foldl insertOnceEnd acc).Nodup := by
  induction xs with
  | nil => intro acc h; exact h
  | cons x rest ih =>
    intro acc h
    exact ih (insertOnceEnd acc x) (insertOnceEnd_nodup acc x h)

/-- The origin Set collected by `setupDNSPrefetch` has no
duplicates. -/
theorem collectOrigins_nodup (ctx : Ctx) (d : Doc) : (collectOrigins ctx d).Nodup :=
  foldl_insertOnceEnd_nodup _ [] List.nodup_nil

theorem dnsHintExists_append_pair (d : Doc) (o' o : String) :
    dnsHintExists { d with elems := d.elems ++ hintPair o' } o =
      (dnsHintExists d o || decide (o' = o)) := by
  simp [dnsHintExists, hintPair, mkDnsLink, mkPreconnect, List.any_append,
    getAttrD, getAttr, getAttrList, defaultElem]

/-- The DNS injection loop on a document with no pre-existing hints
for the (distinct) collected origins appends exactly the hint pairs
of the first `10 - count` origins. -/
theorem dnsLoop_clean (os : List String) (cnt : Nat) (d : Doc)
    (hnd : os.Nodup) (hcnt : cnt ≤ 10)
    (hno : ∀ o ∈ os, dnsHintExists d o = false) :
    (dnsLoop os cnt d).elems = d.elems ++ hintPairs (os.take (10 - cnt)) := by
  induction os generalizing cnt d with
  | nil => simp [dnsLoop, hintPairs]
  | cons o rest ih =>
    by_cases hc : cnt ≥ 10
    · have h0 : 10 - cnt = 0 := by omega
      simp [dnsLoop, hc, h0, hintPairs]
    · have hx : dnsHintExists d o = false := hno o (by simp)
      have hnd' : rest.Nodup := (List.nodup_cons.mp hnd).2
      have hmem : o ∉ rest := (List.nodup_cons.mp hnd).1
      have hno' : ∀ o' ∈ rest, dnsHintExists { d with elems := d.elems ++ hintPair o } o' = false := by
        intro o' ho'
        rw [dnsHintExists_append_pair]
        have h1 : dnsHintExists d o' = false := hno o' (by simp [ho'])
        have h2 : o ≠ o' := fun he => hmem (he ▸ ho')
        simp [h1, h2]
      have hrec : (dnsLoop rest (cnt + 1) { d with elems := d.elems ++ hintPair o }).elems =
          (d.elems ++ hintPair o) ++ hintPairs (rest.take (10 - (cnt + 1))) :=
        ih (cnt + 1) _ hnd' (by omega) hno'
      have hstep : dnsLoop (o :: rest) cnt d =
          dnsLoop rest (cnt + 1) { d with elems := d.elems ++ hintPair o } := by
        rw [dnsLoop]
        simp [hc, hx]
      rw [hstep, hrec]
      have htake : (o :: rest).take (10 - cnt) = o :: rest.take (10 - (cnt + 1)) := by
        have : 10 - cnt = (10 - (cnt + 1)) + 1 := by omega
        rw [this, List.take_succ_cons]
      rw [htake]
      simp [hintPairs, List.append_assoc]

theorem mkDnsLink_inj {o' o : String} (h : mkDnsLink o' = mkDnsLink o) : o' = o := by
  have h2 := congrArg (fun e => getAttrD e "href") h
  simpa [mkDnsLink, getAttrD, getAttr, getAttrList, defaultElem] using h2

theorem mkPreconnect_inj {o' o : String} (h : mkPreconnect o' = mkPreconnect o) : o' = o := by
  have h2 := congrArg (fun e => getAttrD e "href") h
  simpa [mkPreconnect, getAttrD, getAttr, getAttrList, defaultElem] using h2

theorem mkDnsLink_ne_preconnect (o o' : String) : mkDnsLink o ≠ mkPreconnect o' := by
  intro h
  have h2 := congrArg (fun e => getAttrD e "rel") h
  simp [mkDnsLink, mkPreconnect, getAttrD, getAttr, getAttrList, defaultElem] at h2

theorem hintPairs_counts_not_mem (o : String) :
    ∀ l : List String, o ∉ l →
      (hintPairs l).count (mkDnsLink o) = 0 ∧ (hintPairs l).count (mkPreconnect o) = 0
  | [], _ => by simp [hintPairs]
  | o'' :: rest, ho => by
    have hne : o ≠ o'' := fun he => ho (by simp [he])
    have ho' : o ∉ rest := fun hm => ho (by simp [hm])
    obtain ⟨ih1, ih2⟩ := hintPairs_counts_not_mem o rest ho'
    have hd1 : mkDnsLink o'' ≠ mkDnsLink o := fun h => hne (mkDnsLink_inj h).symm
    have hd2 : mkPreconnect o'' ≠ mkDnsLink o := fun h => (mkDnsLink_ne_preconnect o o'') h.symm
    have hp1 : mkDnsLink o'' ≠ mkPreconnect o := mkDnsLink_ne_preconnect o'' o
    have hp2 : mkPreconnect o'' ≠ mkPreconnect o := fun h => hne (mkPreconnect_inj h).symm
    constructor
    · simp [hintPairs, hintPair, List.count_append, List.count_cons, hd1, hd2, ih1]
    · simp [hintPairs, hintPair, List.count_append, List.count_cons, hp1, hp2, ih2]

theorem hintPairs_counts_mem (o : String) :
    ∀ l : List String, l.Nodup → o ∈ l →
      (hintPairs l).count (mkDnsLink o) = 1 ∧ (hintPairs l).count (mkPreconnect o) = 1
  | [], _, ho => by cases ho
  | o'' :: rest, hnd, ho => by
    rcases List.mem_cons.mp ho with he | hm
    · subst he
      have ho' : o ∉ rest := (List.nodup_cons.mp hnd).1
      obtain ⟨h1, h2⟩ := hintPairs_counts_not_mem o rest ho'
      have hp1 : mkDnsLink o ≠ mkPreconnect o := mkDnsLink_ne_preconnect o o
      have hp2 : mkPreconnect o ≠ mkDnsLink o := fun h => (mkDnsLink_ne_preconnect o o) h.symm
      constructor
      · simp [hintPairs, hintPair, List.count_append, List.count_cons, h1, hp2]
      · simp [hintPairs, hintPair, List.count_append, List.count_cons, h2, hp1]
    · have hne : o ≠ o'' := by
        intro he
        exact (List.nodup_cons.mp hnd).1 (he ▸ hm)
      obtain ⟨ih1, ih2⟩ := hintPairs_counts_mem o rest (List.nodup_cons.mp hnd).2 hm
      have hd1 : mkDnsLink o'' ≠ mkDnsLink o := fun h => hne (mkDnsLink_inj h).symm
      have hd2 : mkPreconnect o'' ≠ mkDnsLink o := fun h => (mkDnsLink_ne_preconnect o o'') h.symm
      have hp1 : mkDnsLink o'' ≠ mkPreconnect o := mkDnsLink_ne_preconnect o'' o
      have hp2 : mkPreconnect o'' ≠ mkPreconnect o := fun h => hne (mkPreconnect_inj h).symm
      constructor
      · simp [hintPairs, hintPair, List.count_append, List.count_cons, hd1, hd2, ih1]
      · simp [hintPairs, hintPair, List.count_append, List.count_cons, hp1, hp2, ih2]

theorem hintPairs_href_not_mem (o : String) :
    ∀ l : List String, o ∉ l → ∀ e ∈ hintPairs l, getAttrD e "href" ≠ o
  | [], _ => by simp [hintPairs]
  | o'' :: rest, ho => by
    have hne : o ≠ o'' := fun he => ho (by simp [he])
    have ho' : o ∉ rest := fun hm => ho (by simp [hm])
    intro e he
    rcases (by simpa [hintPairs, hintPair] using he :
        e = mkDnsLink o'' ∨ e = mkPreconnect o'' ∨ e ∈ hintPairs rest) with h | h | h
    · subst h
      simp [mkDnsLink, getAttrD, getAttr, getAttrList, defaultElem, Ne.symm hne]
    · subst h
      simp [mkPreconnect, getAttrD, getAttr, getAttrList, defaultElem, Ne.symm hne]
    · exact hintPairs_href_not_mem o rest ho' e h

/-- C6: on a document referencing at least 15 distinct cross-origin
HTTP(S) origins and containing no pre-existing dns-prefetch hints, one
run of the DNS-hint executor appends exactly the hint pairs of the
first ten collected origins: each of those ten origins receives
exactly one dns-prefetch link and exactly one preconnect link, and no
hint is injected for any origin beyond the tenth (the cap is 10). -/
theorem claim_c6_dns_cap (ctx : Ctx) (s : Settings) (d : Doc)
    (hs : s.prefetchDNS = true)
    (h15 : 15 ≤ (collectOrigins ctx d).length)
    (hclean : ∀ e ∈ d.elems, ¬ (e.tag = "link" ∧ getAttrD e "rel" = "dns-prefetch")) :
    (setupDNSPrefetchF ctx s d).elems =
      d.elems ++ hintPairs ((collectOrigins ctx d).take 10) ∧
    ((collectOrigins ctx d).take 10).length = 10 ∧
    (∀ o ∈ (collectOrigins ctx d).take 10,
      (hintPairs ((collectOrigins ctx d).take 10)).count (mkDnsLink o) = 1 ∧
      (hintPairs ((collectOrigins ctx d).take 10)).count (mkPreconnect o) = 1) ∧
    (∀ o ∈ (collectOrigins ctx d).drop 10,
      ∀ e ∈ hintPairs ((collectOrigins ctx d).take 10), getAttrD e "href" ≠ o) := by
  have hnd : (collectOrigins ctx d).Nodup := collectOrigins_nodup ctx d
  have hno : ∀ o, dnsHintExists d o = false := by
    intro o
    unfold dnsHintExists
    rw [List.any_eq_false]
    intro e he
    simp only [decide_eq_true_eq, not_and]
    intro h1 h2 _
    exact hclean e he ⟨h1, h2⟩
  have heq : (setupDNSPrefetchF ctx s d).elems =
      d.elems ++ hintPairs ((collectOrigins ctx d).take 10) := by
    have hF : setupDNSPrefetchF ctx s d = dnsLoop (collectOrigins ctx d) 0 d := by
      simp [setupDNSPrefetchF, hs]
    rw [hF]
    simpa using dnsLoop_clean (collectOrigins ctx d) 0 d hnd (by omega) (fun o _ => hno o)
  have hndt : ((collectOrigins ctx d).take 10).Nodup :=
    hnd.sublist (List.take_sublist 10 _)
  refine ⟨heq, ?_, ?_, ?_⟩
  · rw [List.length_take]
    omega
  · intro o ho
    exact hintPairs_counts_mem o _ hndt ho
  · intro o ho
    have hnotin : o ∉ (collectOrigins ctx d).take 10 := by
      intro hot
      have hnd2 := hnd
      rw [← List.take_append_drop 10 (collectOrigins ctx d)] at hnd2
      exact (List.disjoint_of_nodup_append hnd2) hot ho
    exact hintPairs_href_not_mem o _ hnotin

def c6ctx : Ctx := { innerW := 800, innerH := 600, origin := "https://page.example", pathname := "/" }

def c6orig (i : Nat) : String := "https://h" ++ toString i ++ ".example"

/-- An anchor referencing the `i`-th third-party origin. -/
def c6anchor (i : Nat) : Elem :=
  { defaultElem with
    tag := "a", attrs := [("href", c6orig i)],
    hrefStr := c6orig i,
    parsedUrl := some { origin := c6orig i, protocol := "https:", pathname := "/", search := "" } }

def c6doc : Doc := { elems := (List.range 15).map c6anchor, fontRules := [] }

def c6settings : Settings :=
  { c4settings with optimizeImagePriority := false, prefetchDNS := true }

/-- C6 witness: a concrete page referencing 15 distinct cross-origin
URLs gets hint pairs for exactly the first 10 collected origins. -/
theorem claim_c6_dns_cap_witness :
    c6settings.prefetchDNS = true ∧
    15 ≤ (collectOrigins c6ctx c6doc).length ∧
    (∀ e ∈ c6doc.elems, ¬ (e.tag = "link" ∧ getAttrD e "rel" = "dns-prefetch")) ∧
    (setupDNSPrefetchF c6ctx c6settings c6doc).elems =
      c6doc.elems ++ hintPairs ((collectOrigins c6ctx c6doc).take 10) ∧
    ((collectOrigins c6ctx c6doc).take 10).length = 10 :=
  ⟨rfl, by decide, by decide,
    (claim_c6_dns_cap c6ctx c6settings c6doc rfl (by decide) (by decide)).1,
    (claim_c6_dns_cap c6ctx c6settings c6doc rfl (by decide) (by decide)).2.1⟩

/-- `applyOptimizations` never touches the pending or injected lists
of the link-prefetch executor (it only arms the observer). -/
theorem applyOpt_prefetch_lists (parse : String → Option Url) (ctx : Ctx) (st : CState) :
    (applyOpt parse ctx st).prefetch.pendingIdle = st.prefetch.pendingIdle ∧
    (applyOpt parse ctx st).prefetch.injected = st.prefetch.injected := by
  unfold applyOpt
  cases hs : st.settings with
  | none => exact ⟨rfl, rfl⟩
  | some s =>
    by_cases hc : st.optimizationsApplied = true ∨ s.enabled = false
    · simp [hc]
    · simp only [hc, if_false]
      cases st.readyState <;> simp

/-- The intersection callback either leaves the prefetch state alone
or appends the intersecting href to the idle queue, and it appends
only when the parsed URL has no query string and no state-changing
path. -/
theorem prefetchIntersectStep_cases (parse : String → Option Url) (ctx : Ctx)
    (href : String) (ps : PrefetchSt) :
    prefetchIntersectStep parse ctx href ps = ps ∨
    (prefetchIntersectStep parse ctx href ps =
        { ps with pendingIdle := ps.pendingIdle ++ [href] } ∧
      ∃ u', parse href = some u' ∧ u'.search = "" ∧ matchesStateChanging u'.pathname = false) := by
  cases hph : parse href with
  | none =>
    simp only [prefetchIntersectStep, hph]
    split_ifs <;> exact Or.inl rfl
  | some u' =>
    simp only [prefetchIntersectStep, hph]
    split_ifs with h1 h2 h3 h4 h5 h6 h7 h8 <;> try exact Or.inl rfl
    refine Or.inr ⟨rfl, u', rfl, ?_, ?_⟩
    · by_contra hs
      exact h7 hs
    · by_contra hm
      exact h8 (by simpa using hm)

theorem intersect_step_safe (parse : String → Option Url) (ctx : Ctx) (H : String) (u : Url)
    (hp : parse H = some u) (hex : u.search ≠ "" ∨ matchesStateChanging u.pathname = true)
    (href : String) (ps : PrefetchSt) (h : H ∉ ps.pendingIdle) :
    H ∉ (prefetchIntersectStep parse ctx href ps).pendingIdle ∧
    (prefetchIntersectStep parse ctx href ps).injected = ps.injected := by
  rcases prefetchIntersectStep_cases parse ctx href ps with heq | ⟨heq, u', hpu, hsr, hmm⟩
  · rw [heq]
    exact ⟨h, rfl⟩
  · rw [heq]
    refine ⟨?_, rfl⟩
    intro hmem
    rcases List.mem_append.mp hmem with hmem | hmem
    · exact h hmem
    · have hH : H = href := by simpa using hmem
      subst hH
      have huu : u' = u := Option.some.inj (hpu.symm.trans hp)
      subst huu
      rcases hex with hx | hx
      · exact hx hsr
      · rw [hmm] at hx
        cases hx

/-- One lifecycle event cannot move an excluded href into the pending
or injected lists of the link-prefetch executor. -/
theorem c8_step_safe (parse : String → Option Url) (ctx : Ctx) (H : String) (u : Url)
    (hp : parse H = some u) (hex : u.search ≠ "" ∨ matchesStateChanging u.pathname = true)
    (st : CState) (ev : Ev)
    (h : H ∉ st.prefetch.pendingIdle ∧ H ∉ st.prefetch.injected) :
    H ∉ (stepEv parse ctx st ev).prefetch.pendingIdle ∧
    H ∉ (stepEv parse ctx st ev).prefetch.injected := by
  obtain ⟨h1, h2⟩ := h
  cases ev with
  | initSettings s =>
    simp only [stepEv]
    obtain ⟨e1, e2⟩ := applyOpt_prefetch_lists parse ctx { st with settings := some s }
    split_ifs with hv <;>
      first
        | exact ⟨h1, h2⟩
        | (rw [e1, e2]; exact ⟨h1, h2⟩)
  | settingsUpdated s =>
    simp only [stepEv]
    obtain ⟨e1, e2⟩ := applyOpt_prefetch_lists parse ctx
      { st with settings := some s, optimizationsApplied := false }
    split_ifs with hv he <;>
      first
        | exact ⟨h1, h2⟩
        | (rw [e1, e2]; exact ⟨h1, h2⟩)
  | refresh =>
    simp only [stepEv]
    obtain ⟨e1, e2⟩ := applyOpt_prefetch_lists parse ctx { st with optimizationsApplied := false }
    split_ifs with hv <;>
      first
        | exact ⟨h1, h2⟩
        | (rw [e1, e2]; exact ⟨h1, h2⟩)
  | domContentLoaded =>
    simp only [stepEv]
    split_ifs with hd <;>
      first
        | exact ⟨h1, h2⟩
        | (cases st.settings <;> exact ⟨h1, h2⟩)
  | loadFired =>
    simp only [stepEv]
    split_ifs with hd <;>
      first
        | exact ⟨h1, h2⟩
        | (cases st.settings <;> exact ⟨h1, h2⟩)
  | mutationBatch added =>
    simp only [stepEv]
    exact ⟨h1, h2⟩
  | idleCleanupFire =>
    simp only [stepEv]
    split_ifs with hc hv <;>
      first
        | exact ⟨h1, h2⟩
        | (cases st.settings <;> exact ⟨h1, h2⟩)
  | linkIntersect href =>
    obtain ⟨p1, p2⟩ := intersect_step_safe parse ctx H u hp hex href st.prefetch h1
    simp only [stepEv]
    refine ⟨p1, ?_⟩
    show H ∉ (prefetchIntersectStep parse ctx href st.prefetch).injected
    rw [p2]
    exact h2
  | prefetchIdleFire i =>
    simp only [stepEv, prefetchIdleStep]
    cases hg : st.prefetch.pendingIdle.get? i with
    | none => exact ⟨h1, h2⟩
    | some href =>
      have hmem : href ∈ st.prefetch.pendingIdle := List.get?_mem hg
      have hne : href ≠ H := fun he => h1 (he ▸ hmem)
      have herase : H ∉ st.prefetch.pendingIdle.eraseIdx i :=
        fun hm => h1 (List.mem_of_mem_eraseIdx hm)
      split_ifs with hcap
      · exact ⟨herase, h2⟩
      · refine ⟨herase, ?_⟩
        intro hm
        rcases List.mem_append.mp hm with hm | hm
        · exact h2 hm
        · have hmh : H = href := by simpa using hm
          exact hne hmh.symm
  | invalidateContext =>
    simp only [stepEv]
    exact ⟨h1, h2⟩

/-- C8: for every link whose URL has a query string or matches the
state-changing-path pattern, the link-prefetch executor never injects
a prefetch hint for it: over every sequence of lifecycle, mutation,
intersection and idle events from a state in which the href is
neither pending nor recorded as injected, it is never injected. -/
theorem claim_c8_exclusion (parse : String → Option Url) (ctx : Ctx) (H : String) (u : Url)
    (hp : parse H = some u) (hex : u.search ≠ "" ∨ matchesStateChanging u.pathname = true)
    (evts : List Ev) (st0 : CState)
    (h0p : H ∉ st0.prefetch.pendingIdle) (h0i : H ∉ st0.prefetch.injected) :
    H ∉ (runEvents parse ctx st0 evts).prefetch.injected := by
  suffices hall : H ∉ (runEvents parse ctx st0 evts).prefetch.pendingIdle ∧
      H ∉ (runEvents parse ctx st0 evts).prefetch.injected from hall.2
  induction evts generalizing st0 with
  | nil => exact ⟨h0p, h0i⟩
  | cons ev rest ih =>
    have hstep := c8_step_safe parse ctx H u hp hex st0 ev ⟨h0p, h0i⟩
    exact ih (stepEv parse ctx st0 ev) hstep.1 hstep.2

def c8ctx : Ctx := { innerW := 800, innerH := 600, origin := "https://page.example", pathname := "/" }

def c8url : Url :=
  { origin := "https://page.example", protocol := "https:",
    pathname := "/logout", search := "?token=x" }

/-- A concrete URL parser covering the single href of the C8
scenario. -/
def c8parse (s : String) : Option Url :=
  if s = "https://page.example/logout?token=x" then some c8url else none

def c8st0 : CState :=
  { doc := { elems := [], fontRules := [] }, settings := none,
    optimizationsApplied := false, observerActive := false, cleanupScheduled := false,
    dclListener := false, loadListener := false, readyState := CReady.loading,
    contextValid := true,
    prefetch := { active := true, prefetched := [], pendingIdle := [], injected := [] } }

/-- C8 witness: a link to `/logout?token=x` intersecting the viewport
under an active link-prefetch observer is never injected, even after
an idle opportunity. -/
theorem claim_c8_exclusion_witness :
    c8parse "https://page.example/logout?token=x" = some c8url ∧
    c8url.search ≠ "" ∧
    "https://page.example/logout?token=x" ∉
      (runEvents c8parse c8ctx c8st0
        [Ev.linkIntersect "https://page.example/logout?token=x",
         Ev.prefetchIdleFire 0]).prefetch.injected :=
  ⟨by decide, by decide,
    claim_c8_exclusion c8parse c8ctx "https://page.example/logout?token=x" c8url
      (by decide) (Or.inl (by decide))
      [Ev.linkIntersect "https://page.example/logout?token=x", Ev.prefetchIdleFire 0]
      c8st0 (by decide) (by decide)⟩

def c2parse : String → Option Url := fun _ => none

def c2ctx : Ctx := { innerW := 800, innerH := 600, origin := "https://page.example", pathname := "/" }

def c2settings : Settings :=
  { c4settings with optimizeImagePriority := false, prefetchDNS := true }

/-- A page referencing 11 distinct cross-origin URLs. -/
def c2doc : Doc := { elems := (List.range 11).map c6anchor, fontRules := [] }

/-- C2: the full pass is not idempotent.  On a document with 11
distinct cross-origin origins, the first pass injects hint pairs for
the first 10 origins (22 + 9 = 31 elements); on the second pass the
already-hinted origins are skipped by the dedup check *without being
counted against the cap*, so the eleventh origin also receives a hint
pair (33 elements): running the pass twice does not equal running it
once. -/
theorem claim_c2_pass_not_idempotent :
    c2settings.enabled = true ∧
    (allPhasesPass c2parse c2ctx c2settings c2doc).elems.length = 31 ∧
    (allPhasesPass c2parse c2ctx c2settings
      (allPhasesPass c2parse c2ctx c2settings c2doc)).elems.length = 33 ∧
    allPhasesPass c2parse c2ctx c2settings (allPhasesPass c2parse c2ctx c2settings c2doc) ≠
      allPhasesPass c2parse c2ctx c2settings c2doc := by
  refine ⟨rfl, by decide, by decide, by decide⟩

def c1parse : String → Option Url := fun _ => none

def c1ctx : Ctx := { innerW := 800, innerH := 600, origin := "https://page.example", pathname := "/" }

/-- A full-featured enabled snapshot (DNS/LCP hints off to keep the
scenario minimal). -/
def c1settingsOn : Settings :=
  { enabled := true, disableAnimations := true, lazyLoadImages := true,
    disableAutoplay := true, throttleTimers := true, prefetchDNS := false,
    preloadLCP := false, prefetchLinks := false, optimizeImagePriority := true,
    lazyLoadIframes := true, reduceMediaPreload := true, fontDisplaySwap := true,
    contentVisibility := true, stabilizeLayout := true, nonBlockingCSS := true,
    deferScripts := false, passiveListeners := true }

/-- The same snapshot with the master flag turned off (exactly what
the background worker broadcasts when the popup master toggle is
clicked: only `enabled` flips). -/
def c1settingsOff : Settings := { c1settingsOn with enabled := false }

def c1img : Elem := { defaultElem with tag := "img" }

def c1section : Elem :=
  { defaultElem with tag := "section", rect := { top := 5000, bottom := 5200, left := 0, right := 800 } }

def c1doc : Doc := { elems := [c1img, c1section], fontRules := [] }

def c1st0 : CState :=
  { doc := c1doc, settings := none, optimizationsApplied := false, observerActive := false,
    cleanupScheduled := false, dclListener := false, loadListener := false,
    readyState := CReady.loading, contextValid := true, prefetch := emptyPrefetch }

/-- The state after the enabled snapshot arrives at document start. -/
def c1st1 : CState := stepEv c1parse c1ctx c1st0 (Ev.initSettings c1settingsOn)

/-- The state after the `enabled=false` snapshot takes effect:
observer disconnected, Global Injected Artifacts removed — but the
`DOMContentLoaded` listener registered earlier is still pending. -/
def c1st2 : CState := stepEv c1parse c1ctx c1st1 (Ev.settingsUpdated c1settingsOff)

/-- The state after the pending `DOMContentLoaded` listener fires. -/
def c1st3 : CState := stepEv c1parse c1ctx c1st2 Ev.domContentLoaded

/-- C1: with the current snapshot disabled (`enabled=false`) and both
artifacts absent after teardown, the still-registered
`DOMContentLoaded` handler runs the executors — which consult only
their per-feature flags, never `enabled` — so the document is mutated
(the image gains `loading="lazy"`) and the content-visibility
artifact is re-injected while the extension is disabled. -/
theorem claim_c1_disable_violation :
    c1st2.settings = some c1settingsOff ∧
    c1settingsOff.enabled = false ∧
    hasElemWithId c1st2.doc animStyleId = false ∧
    hasElemWithId c1st2.doc cvStyleId = false ∧
    getAttr (c1st2.doc.elems.getD 0 defaultElem) "loading" = none ∧
    getAttr (c1st3.doc.elems.getD 0 defaultElem) "loading" = some "lazy" ∧
    c1st3.doc ≠ c1st2.doc ∧
    hasElemWithId c1st3.doc cvStyleId = true := by
  refine ⟨by decide, rfl, by decide, by decide, by decide, by decide, by decide, by decide⟩

def c3parse : String → Option Url := fun _ => none

def c3ctx : Ctx := { innerW := 800, innerH := 600, origin := "https://page.example", pathname := "/" }

/-- An image whose intrinsic size is known, so the first pass both
claims it and stabilizes it. -/
def c3img : Elem :=
  { defaultElem with
    tag := "img", naturalWidth := 100, naturalHeight := 50,
    rect := { top := 0, bottom := 50, left := 0, right := 100 } }

def c3section : Elem :=
  { defaultElem with tag := "section", rect := { top := 5000, bottom := 5200, left := 0, right := 800 } }

def c3doc : Doc := { elems := [c3img, c3section], fontRules := [] }

def c3st0 : CState :=
  { doc := c3doc, settings := none, optimizationsApplied := false, observerActive := false,
    cleanupScheduled := false, dclListener := false, loadListener := false,
    readyState := CReady.complete, contextValid := true, prefetch := emptyPrefetch }

/-- Fully applied enabled state (readyState complete, so the whole
pass ran synchronously). -/
def c3stA : CState := stepEv c3parse c3ctx c3st0 (Ev.initSettings c1settingsOn)

/-- After the master toggle flips to false. -/
def c3stB : CState := stepEv c3parse c3ctx c3stA (Ev.settingsUpdated c1settingsOff)

/-- After the master toggle flips back to true. -/
def c3stC : CState := stepEv c3parse c3ctx c3stB (Ev.settingsUpdated c1settingsOn)

/-- C3 counterexample: the content-visibility tag `data-fc-cv` — one
of the per-family marker keys of the Node Processing State — does not
survive the toggle cycle: it is set after the first enable, removed
by the flip to false, and set again by the flip back to true, i.e.
the node is re-processed by the content-visibility executor rather
than skipped; this refutes "the node's previously set markers are
still present (so the node is not re-processed)" for every marker
key.  (The durable markers, e.g. `data-fc-optimized` on the image,
do persist.) -/
theorem claim_c3_counterexample :
    hasAttr (c3stA.doc.elems.getD 1 defaultElem) "data-fc-cv" = true ∧
    hasAttr (c3stB.doc.elems.getD 1 defaultElem) "data-fc-cv" = false ∧
    hasAttr (c3stC.doc.elems.getD 1 defaultElem) "data-fc-cv" = true ∧
    hasAttr (c3stB.doc.elems.getD 0 defaultElem) "data-fc-optimized" = true ∧
    hasElemWithId c3stB.doc cvStyleId = false ∧
    hasElemWithId c3stC.doc cvStyleId = true := by
  refine ⟨by decide, by decide, by decide, by decide, by decide, by decide⟩

/-- The marker keys that teardown leaves in place (every engine
marker except the content-visibility tag). -/
def durableMarkers : List String :=
  ["data-fc-optimized", "data-fc-stabilized", "data-fc-media-opt", "data-fc-nb"]

def disabledOf (s : Settings) : Settings := { s with enabled := false }

/-- The master-toggle cycle true→false→true, delivered as two
consecutive `SETTINGS_UPDATED` messages. -/
def toggleCycle (parse : String → Option Url) (ctx : Ctx) (s : Settings) (st : CState) : CState :=
  stepEv parse ctx (stepEv parse ctx st (Ev.settingsUpdated (disabledOf s))) (Ev.settingsUpdated s)

/-- The document transformation performed by `applyOptimizations` when
the document is already completely loaded. -/
def enableDocPass (parse : String → Option Url) (ctx : Ctx) (s : Settings) (d : Doc) : Doc :=
  stabilizeImageLayoutF s
    (onDOMContentLoadedF parse ctx s (disableAnimationsF s (injectPageScriptF true d)))

theorem durable_ne_cv : ∀ m ∈ durableMarkers, m ≠ "data-fc-cv" := by decide

theorem durable_ne_autoplay : ∀ m ∈ durableMarkers, m ≠ "autoplay" := by decide

theorem hasAttr_setAttr_mono (e : Elem) (k v m : String) (h : hasAttr e m = true) :
    hasAttr (setAttr e k v) m = true := by
  by_cases hk : m = k
  · subst hk
    exact hasAttr_setAttr_self e m v
  · rw [hasAttr_setAttr_ne e k v m hk]
    exact h

theorem lazyImgStep_keeps (e : Elem) (m : String) (h : hasAttr e m = true) :
    hasAttr (lazyImgStep e) m = true := by
  unfold lazyImgStep
  split_ifs
  · exact hasAttr_setAttr_mono _ _ _ _ h
  · exact h

theorem lazyIframeStep_keeps (e : Elem) (m : String) (h : hasAttr e m = true) :
    hasAttr (lazyIframeStep e) m = true := by
  simp only [lazyIframeStep]
  split_ifs <;> first | exact h | exact hasAttr_setAttr_mono _ _ _ _ h

theorem autoplayStep_keeps (t : String) (e : Elem) (m : String)
    (hm : m ≠ "autoplay") (h : hasAttr e m = true) :
    hasAttr (autoplayStep t e) m = true := by
  unfold autoplayStep
  split_ifs
  · show hasAttr (removeAttr e "autoplay") m = true
    rw [hasAttr_removeAttr_ne e "autoplay" m hm]
    exact h
  · exact h

theorem mediaPreloadStep_keeps (e : Elem) (m : String) (h : hasAttr e m = true) :
    hasAttr (mediaPreloadStep e) m = true := by
  simp only [mediaPreloadStep]
  split_ifs <;>
    first
      | exact h
      | exact hasAttr_setAttr_mono _ _ _ _ h
      | exact hasAttr_setAttr_mono _ _ _ _ (hasAttr_setAttr_mono _ _ _ _ h)

theorem optImgStep_keeps (ctx : Ctx) (e : Elem) (m : String) (h : hasAttr e m = true) :
    hasAttr (optImgStep ctx e) m = true := by
  simp only [optImgStep]
  split_ifs <;>
    first
      | exact hasAttr_setAttr_mono _ _ _ _ h
      | exact hasAttr_setAttr_mono _ _ _ _ (hasAttr_setAttr_mono _ _ _ _ h)
      | exact hasAttr_setAttr_mono _ _ _ _
          (hasAttr_setAttr_mono _ _ _ _ (hasAttr_setAttr_mono _ _ _ _ h))

theorem optImgGate_keeps (ctx : Ctx) (e : Elem) (m : String) (h : hasAttr e m = true) :
    hasAttr (optImgGate ctx e) m = true := by
  unfold optImgGate
  split_ifs
  · exact optImgStep_keeps ctx e m h
  · exact h

theorem stabilizeStep_keeps (e : Elem) (m : String) (h : hasAttr e m = true) :
    hasAttr (stabilizeStep e) m = true := by
  simp only [stabilizeStep]
  split_ifs
  · exact h
  · show hasAttr (setAttr _ "data-fc-stabilized" "") m = true
    refine hasAttr_setAttr_mono _ _ _ _ ?_
    show hasAttr (setAttr (setAttr e "width" _) "height" _) m = true
    exact hasAttr_setAttr_mono _ _ _ _ (hasAttr_setAttr_mono _ _ _ _ h)
  · exact h

theorem stabilizeGate_keeps (e : Elem) (m : String) (h : hasAttr e m = true) :
    hasAttr (stabilizeGate e) m = true := by
  unfold stabilizeGate
  split_ifs
  · exact stabilizeStep_keeps e m h
  · exact h

theorem cvStep_keeps (ctx : Ctx) (e : Elem) (m : String) (h : hasAttr e m = true) :
    hasAttr (cvStep ctx e) m = true := by
  unfold cvStep
  split_ifs
  · exact hasAttr_setAttr_mono _ _ _ _ h
  · exact h

/-- Marker preservation of a document transformation: every element
carrying a durable marker has an image in the output still carrying
it. -/
def PresMark (f : Doc → Doc) : Prop :=
  ∀ d : Doc, ∀ e ∈ d.elems, ∀ m ∈ durableMarkers, hasAttr e m = true →
    ∃ e' ∈ (f d).elems, hasAttr e' m = true

theorem presMark_setupLazyLoadingF (s : Settings) : PresMark (setupLazyLoadingF s) := by
  intro d e he m hm h
  unfold setupLazyLoadingF
  split_ifs
  · exact ⟨e, he, h⟩
  · exact ⟨lazyImgStep e, List.mem_map_of_mem _ he, lazyImgStep_keeps e m h⟩

theorem presMark_setupLazyLoadIframesF (s : Settings) : PresMark (setupLazyLoadIframesF s) := by
  intro d e he m hm h
  unfold setupLazyLoadIframesF
  split_ifs
  · exact ⟨e, he, h⟩
  · exact ⟨lazyIframeStep e, List.mem_map_of_mem _ he, lazyIframeStep_keeps e m h⟩

theorem presMark_disableAutoplayF (s : Settings) : PresMark (disableAutoplayF s) := by
  intro d e he m hm h
  unfold disableAutoplayF
  split_ifs
  · exact ⟨e, he, h⟩
  · refine ⟨autoplayStep "audio" (autoplayStep "video" e),
      List.mem_map_of_mem _ (List.mem_map_of_mem _ he), ?_⟩
    exact autoplayStep_keeps "audio" _ m (durable_ne_autoplay m hm)
      (autoplayStep_keeps "video" e m (durable_ne_autoplay m hm) h)

theorem presMark_reduceMediaPreloadF (s : Settings) : PresMark (reduceMediaPreloadF s) := by
  intro d e he m hm h
  unfold reduceMediaPreloadF
  split_ifs
  · exact ⟨e, he, h⟩
  · exact ⟨mediaPreloadStep e, List.mem_map_of_mem _ he, mediaPreloadStep_keeps e m h⟩

theorem presMark_optimizeImageLoadingF (ctx : Ctx) (s : Settings) :
    PresMark (optimizeImageLoadingF ctx s) := by
  intro d e he m hm h
  unfold optimizeImageLoadingF
  split_ifs
  · exact ⟨e, he, h⟩
  · exact ⟨optImgGate ctx e, List.mem_map_of_mem _ he, optImgGate_keeps ctx e m h⟩

theorem dnsLoop_extends : ∀ (os : List String) (cnt : Nat) (d : Doc),
    ∃ tail, (dnsLoop os cnt d).elems = d.elems ++ tail
  | [], _, d => ⟨[], by simp [dnsLoop]⟩
  | o :: rest, cnt, d => by
    rw [dnsLoop]
    split_ifs with h1 h2
    · exact ⟨[], by simp⟩
    · exact dnsLoop_extends rest cnt d
    · obtain ⟨t2, ht⟩ := dnsLoop_extends rest (cnt + 1) { d with elems := d.elems ++ hintPair o }
      refine ⟨hintPair o ++ t2, ?_⟩
      rw [ht]
      simp [List.append_assoc]

theorem presMark_setupDNSPrefetchF (ctx : Ctx) (s : Settings) :
    PresMark (setupDNSPrefetchF ctx s) := by
  intro d e he m hm h
  unfold setupDNSPrefetchF
  split_ifs
  · exact ⟨e, he, h⟩
  · obtain ⟨tail, ht⟩ := dnsLoop_extends (collectOrigins ctx d) 0 d
    refine ⟨e, ?_, h⟩
    rw [ht]
    exact List.mem_append_left _ he

theorem presMark_preloadLCPCandidateF (parse : String → Option Url) (ctx : Ctx) (s : Settings) :
    PresMark (preloadLCPCandidateF parse ctx s) := by
  intro d e he m hm h
  unfold preloadLCPCandidateF
  split_ifs
  · exact ⟨e, he, h⟩
  · rcases hscan : lcpScan ctx d.elems (none, 0) with ⟨b, area⟩
    cases b with
    | none => exact ⟨e, he, h⟩
    | some img =>
      dsimp only
      split_ifs
      · exact ⟨e, he, h⟩
      · exact ⟨e, List.mem_append_left _ he, h⟩
      · exact ⟨e, he, h⟩

theorem presMark_injectFontDisplaySwapF (s : Settings) : PresMark (injectFontDisplaySwapF s) := by
  intro d e he m hm h
  unfold injectFontDisplaySwapF
  split_ifs
  · exact ⟨e, he, h⟩
  · exact ⟨e, he, h⟩

theorem presMark_injectContentVisibilityF (ctx : Ctx) (s : Settings) :
    PresMark (injectContentVisibilityF ctx s) := by
  intro d e he m hm h
  simp only [injectContentVisibilityF]
  split_ifs
  · exact ⟨e, he, h⟩
  · exact ⟨e, he, h⟩
  · exact ⟨cvStep ctx e, List.mem_append_left _ (List.mem_map_of_mem _ he),
      cvStep_keeps ctx e m h⟩
  · exact ⟨cvStep ctx e, List.mem_map_of_mem _ he, cvStep_keeps ctx e m h⟩

theorem presMark_stabilizeImageLayoutF (s : Settings) : PresMark (stabilizeImageLayoutF s) := by
  intro d e he m hm h
  unfold stabilizeImageLayoutF
  split_ifs
  · exact ⟨e, he, h⟩
  · exact ⟨stabilizeGate e, List.mem_map_of_mem _ he, stabilizeGate_keeps e m h⟩

theorem presMark_disableAnimationsF (s : Settings) : PresMark (disableAnimationsF s) := by
  intro d e he m hm h
  unfold disableAnimationsF
  split_ifs
  · exact ⟨e, he, h⟩
  · exact ⟨e, he, h⟩
  · exact ⟨e, List.mem_append_left _ he, h⟩

theorem presMark_injectPageScriptF (v : Bool) : PresMark (injectPageScriptF v) := by
  intro d e he m hm h
  unfold injectPageScriptF
  split_ifs
  · exact ⟨e, List.mem_append_left _ he, h⟩
  · exact ⟨e, he, h⟩

theorem presMark_onDCL (parse : String → Option Url) (ctx : Ctx) (s : Settings) :
    PresMark (onDOMContentLoadedF parse ctx s) := by
  intro d e he m hm h
  unfold onDOMContentLoadedF
  obtain ⟨e1, he1, h1⟩ := presMark_setupLazyLoadingF s d e he m hm h
  obtain ⟨e2, he2, h2⟩ := presMark_setupLazyLoadIframesF s _ e1 he1 m hm h1
  obtain ⟨e3, he3, h3⟩ := presMark_disableAutoplayF s _ e2 he2 m hm h2
  obtain ⟨e4, he4, h4⟩ := presMark_reduceMediaPreloadF s _ e3 he3 m hm h3
  obtain ⟨e5, he5, h5⟩ := presMark_optimizeImageLoadingF ctx s _ e4 he4 m hm h4
  obtain ⟨e6, he6, h6⟩ := presMark_setupDNSPrefetchF ctx s _ e5 he5 m hm h5
  obtain ⟨e7, he7, h7⟩ := presMark_preloadLCPCandidateF parse ctx s _ e6 he6 m hm h6
  obtain ⟨e8, he8, h8⟩ := presMark_injectFontDisplaySwapF s _ e7 he7 m hm h7
  obtain ⟨e9, he9, h9⟩ := presMark_injectContentVisibilityF ctx s _ e8 he8 m hm h8
  exact presMark_stabilizeImageLayoutF s _ e9 he9 m hm h9

theorem presMark_enableDocPass (parse : String → Option Url) (ctx : Ctx) (s : Settings) :
    PresMark (enableDocPass parse ctx s) := by
  intro d e he m hm h
  unfold enableDocPass
  obtain ⟨e1, he1, h1⟩ := presMark_injectPageScriptF true d e he m hm h
  obtain ⟨e2, he2, h2⟩ := presMark_disableAnimationsF s _ e1 he1 m hm h1
  obtain ⟨e3, he3, h3⟩ := presMark_onDCL parse ctx s _ e2 he2 m hm h2
  exact presMark_stabilizeImageLayoutF s _ e3 he3 m hm h3

theorem mem_removeFirstById (x : String) :
    ∀ (l : List Elem) (e : Elem), e ∈ l → getAttrD e "id" ≠ x → e ∈ removeFirstById x l
  | [], e, he, _ => absurd he (List.not_mem_nil e)
  | e' :: rest, e, he, hid => by
    rw [removeFirstById]
    split_ifs with h1
    · rcases List.mem_cons.mp he with he2 | hmem
      · exact absurd (he2 ▸ h1) hid
      · exact hmem
    · rcases List.mem_cons.mp he with he2 | hmem
      · exact he2 ▸ List.mem_cons_self e' _
      · exact List.mem_cons_of_mem _ (mem_removeFirstById x rest e hmem hid)

/-- An element that is not one of the two artifact styles survives
teardown, with only its `data-fc-cv` attribute stripped. -/
theorem mem_removeInjectedStylesF (d : Doc) (e : Elem) (he : e ∈ d.elems)
    (hia : getAttrD e "id" ≠ animStyleId) (hic : getAttrD e "id" ≠ cvStyleId) :
    removeAttr e "data-fc-cv" ∈ (removeInjectedStylesF d).elems := by
  unfold removeInjectedStylesF
  exact List.mem_map_of_mem _
    (mem_removeFirstById cvStyleId _ e (mem_removeFirstById animStyleId _ e he hia) hic)

/-- The document after the full toggle cycle from a completely loaded
valid state: teardown followed by a fresh complete-phase application
over the torn-down document. -/
theorem toggleCycle_doc (parse : String → Option Url) (ctx : Ctx) (s : Settings) (st : CState)
    (hv : st.contextValid = true) (hen : s.enabled = true) (hrs : st.readyState = CReady.complete) :
    (toggleCycle parse ctx s st).doc = enableDocPass parse ctx s (removeInjectedStylesF st.doc) := by
  unfold toggleCycle
  have h1 : stepEv parse ctx st (Ev.settingsUpdated (disabledOf s)) =
      { st with
        settings := some (disabledOf s), optimizationsApplied := false,
        observerActive := false, doc := removeInjectedStylesF st.doc } := by
    simp [stepEv, hv, disabledOf]
  rw [h1]
  simp [stepEv, hv, hen, applyOpt, hrs, enableDocPass]

theorem lazyImgStep_id (e : Elem) : getAttrD (lazyImgStep e) "id" = getAttrD e "id" := by
  simp only [lazyImgStep]
  split_ifs <;> simp [getAttrD_setAttr_ne]

theorem lazyIframeStep_id (e : Elem) : getAttrD (lazyIframeStep e) "id" = getAttrD e "id" := by
  simp only [lazyIframeStep]
  split_ifs <;> simp [getAttrD_setAttr_ne]

theorem autoplayStep_id (t : String) (e : Elem) :
    getAttrD (autoplayStep t e) "id" = getAttrD e "id" := by
  simp only [autoplayStep]
  split_ifs <;> simp [getAttrD, getAttr, removeAttr, getAttrList_remove_ne]

theorem mediaPreloadStep_id (e : Elem) : getAttrD (mediaPreloadStep e) "id" = getAttrD e "id" := by
  simp only [mediaPreloadStep]
  split_ifs <;> simp [getAttrD_setAttr_ne]

theorem optImgGate_id (ctx : Ctx) (e : Elem) :
    getAttrD (optImgGate ctx e) "id" = getAttrD e "id" := by
  simp only [optImgGate, optImgStep]
  split_ifs <;> simp [getAttrD_setAttr_ne]

theorem stabilizeGate_id (e : Elem) : getAttrD (stabilizeGate e) "id" = getAttrD e "id" := by
  simp only [stabilizeGate, stabilizeStep]
  split_ifs <;> simp [getAttrD, getAttr, setAttr, getAttrList_set_ne]

theorem cvStep_id (ctx : Ctx) (e : Elem) : getAttrD (cvStep ctx e) "id" = getAttrD e "id" := by
  simp only [cvStep]
  split_ifs <;> simp [getAttrD_setAttr_ne]

/-- An element fixed by every per-element executor step (the style
and script artifacts, and any clean non-media element). -/
def inertElem (ctx : Ctx) (e : Elem) : Prop :=
  lazyImgStep e = e ∧ lazyIframeStep e = e ∧ autoplayStep "video" e = e ∧
  autoplayStep "audio" e = e ∧ mediaPreloadStep e = e ∧ optImgGate ctx e = e ∧
  stabilizeGate e = e ∧ cvStep ctx e = e

theorem hasAttr_of_attrs_nil (e : Elem) (ha : e.attrs = []) (k : String) :
    hasAttr e k = false := by
  simp [hasAttr, getAttr, ha, getAttrList]

theorem removeAttr_of_attrs_nil (e : Elem) (ha : e.attrs = []) (k : String) :
    removeAttr e k = e := by
  cases e
  simp only at ha
  simp [removeAttr, ha, removeAttrList]

/-- The injected style artifacts are inert: no executor step touches
them. -/
theorem inert_styleElem (ctx : Ctx) (x : String) : inertElem ctx (mkStyleElem x) := by
  refine ⟨?_, ?_, ?_, ?_, ?_, ?_, ?_, ?_⟩ <;>
    simp [lazyImgStep, lazyIframeStep, autoplayStep, mediaPreloadStep, optImgGate,
      stabilizeGate, cvStep, cvQualifies, cvCandidate, mkStyleElem, defaultElem,
      hasAttr, getAttr, getAttrList, getAttrD]

/-- A clean below-the-fold section is fixed by every step except the
content-visibility tagging. -/
theorem section_fixed (ctx : Ctx) (e : Elem) (ht : e.tag = "section") (ha : e.attrs = []) :
    lazyImgStep e = e ∧ lazyIframeStep e = e ∧ autoplayStep "video" e = e ∧
    autoplayStep "audio" e = e ∧ mediaPreloadStep e = e ∧ optImgGate ctx e = e ∧
    stabilizeGate e = e := by
  have hna : ∀ k, hasAttr e k = false := hasAttr_of_attrs_nil e ha
  refine ⟨?_, ?_, ?_, ?_, ?_, ?_, ?_⟩ <;>
    simp [lazyImgStep, lazyIframeStep, autoplayStep, mediaPreloadStep, optImgGate,
      stabilizeGate, ht, hna]

/-- No element of the list has the given id. -/
def noId (x : String) (l : List Elem) : Prop := ∀ e ∈ l, getAttrD e "id" ≠ x

theorem mem_setupLazyLoadingF (s : Settings) (d : Doc) (e : Elem) (he : e ∈ d.elems)
    (hfix : lazyImgStep e = e) : e ∈ (setupLazyLoadingF s d).elems := by
  unfold setupLazyLoadingF
  split_ifs
  · exact he
  · have hmem := List.mem_map_of_mem lazyImgStep he
    rwa [hfix] at hmem

theorem mem_setupLazyLoadIframesF (s : Settings) (d : Doc) (e : Elem) (he : e ∈ d.elems)
    (hfix : lazyIframeStep e = e) : e ∈ (setupLazyLoadIframesF s d).elems := by
  unfold setupLazyLoadIframesF
  split_ifs
  · exact he
  · have hmem := List.mem_map_of_mem lazyIframeStep he
    rwa [hfix] at hmem

theorem mem_disableAutoplayF (s : Settings) (d : Doc) (e : Elem) (he : e ∈ d.elems)
    (hfv : autoplayStep "video" e = e) (hfa : autoplayStep "audio" e = e) :
    e ∈ (disableAutoplayF s d).elems := by
  unfold disableAutoplayF
  split_ifs
  · exact he
  · have hmem := List.mem_map_of_mem (autoplayStep "audio")
      (List.mem_map_of_mem (autoplayStep "video") he)
    rwa [hfv, hfa] at hmem

theorem mem_reduceMediaPreloadF (s : Settings) (d : Doc) (e : Elem) (he : e ∈ d.elems)
    (hfix : mediaPreloadStep e = e) : e ∈ (reduceMediaPreloadF s d).elems := by
  unfold reduceMediaPreloadF
  split_ifs
  · exact he
  · have hmem := List.mem_map_of_mem mediaPreloadStep he
    rwa [hfix] at hmem

theorem mem_optimizeImageLoadingF (ctx : Ctx) (s : Settings) (d : Doc) (e : Elem)
    (he : e ∈ d.elems) (hfix : optImgGate ctx e = e) :
    e ∈ (optimizeImageLoadingF ctx s d).elems := by
  unfold optimizeImageLoadingF
  split_ifs
  · exact he
  · have hmem := List.mem_map_of_mem (optImgGate ctx) he
    rwa [hfix] at hmem

theorem mem_stabilizeImageLayoutF (s : Settings) (d : Doc) (e : Elem) (he : e ∈ d.elems)
    (hfix : stabilizeGate e = e) : e ∈ (stabilizeImageLayoutF s d).elems := by
  unfold stabilizeImageLayoutF
  split_ifs
  · exact he
  · have hmem := List.mem_map_of_mem stabilizeGate he
    rwa [hfix] at hmem

theorem mem_injectPageScriptF (v : Bool) (d : Doc) (e : Elem) (he : e ∈ d.elems) :
    e ∈ (injectPageScriptF v d).elems := by
  unfold injectPageScriptF
  split_ifs
  · exact List.mem_append_left _ he
  · exact he

theorem mem_disableAnimationsF (s : Settings) (d : Doc) (e : Elem) (he : e ∈ d.elems) :
    e ∈ (disableAnimationsF s d).elems := by
  unfold disableAnimationsF
  split_ifs
  · exact he
  · exact he
  · exact List.mem_append_left _ he

theorem mem_setupDNSPrefetchF (ctx : Ctx) (s : Settings) (d : Doc) (e : Elem)
    (he : e ∈ d.elems) : e ∈ (setupDNSPrefetchF ctx s d).elems := by
  unfold setupDNSPrefetchF
  split_ifs
  · exact he
  · obtain ⟨tail, ht⟩ := dnsLoop_extends (collectOrigins ctx d) 0 d
    rw [ht]
    exact List.mem_append_left _ he

theorem mem_preloadLCPCandidateF (parse : String → Option Url) (ctx : Ctx) (s : Settings)
    (d : Doc) (e : Elem) (he : e ∈ d.elems) : e ∈ (preloadLCPCandidateF parse ctx s d).elems := by
  unfold preloadLCPCandidateF
  split_ifs
  · exact he
  · rcases hscan : lcpScan ctx d.elems (none, 0) with ⟨b, area⟩
    cases b with
    | none => exact he
    | some img =>
      dsimp only
      split_ifs
      · exact he
      · exact List.mem_append_left _ he
      · exact he

theorem mem_injectFontDisplaySwapF (s : Settings) (d : Doc) (e : Elem) (he : e ∈ d.elems) :
    e ∈ (injectFontDisplaySwapF s d).elems := by
  unfold injectFontDisplaySwapF
  split_ifs
  · exact he
  · exact he

theorem mem_injectContentVisibilityF (ctx : Ctx) (s : Settings) (d : Doc) (e : Elem)
    (he : e ∈ d.elems) (hfix : cvStep ctx e = e) :
    e ∈ (injectContentVisibilityF ctx s d).elems := by
  simp only [injectContentVisibilityF]
  split_ifs
  · exact he
  · exact he
  · refine List.mem_append_left _ ?_
    have hmem := List.mem_map_of_mem (cvStep ctx) he
    rwa [hfix] at hmem
  · have hmem := List.mem_map_of_mem (cvStep ctx) he
    rwa [hfix] at hmem

theorem noId_setupLazyLoadingF (s : Settings) (d : Doc) (x : String)
    (h : noId x d.elems) : noId x (setupLazyLoadingF s d).elems := by
  unfold setupLazyLoadingF
  split_ifs
  · exact h
  · intro e' he'
    obtain ⟨e, he, rfl⟩ := List.mem_map.mp he'
    rw [lazyImgStep_id]
    exact h e he

theorem noId_setupLazyLoadIframesF (s : Settings) (d : Doc) (x : String)
    (h : noId x d.elems) : noId x (setupLazyLoadIframesF s d).elems := by
  unfold setupLazyLoadIframesF
  split_ifs
  · exact h
  · intro e' he'
    obtain ⟨e, he, rfl⟩ := List.mem_map.mp he'
    rw [lazyIframeStep_id]
    exact h e he

theorem noId_disableAutoplayF (s : Settings) (d : Doc) (x : String)
    (h : noId x d.elems) : noId x (disableAutoplayF s d).elems := by
  unfold disableAutoplayF
  split_ifs
  · exact h
  · intro e' he'
    obtain ⟨e2, he2, rfl⟩ := List.mem_map.mp he'
    obtain ⟨e, he, rfl⟩ := List.mem_map.mp he2
    rw [autoplayStep_id, autoplayStep_id]
    exact h e he

theorem noId_reduceMediaPreloadF (s : Settings) (d : Doc) (x : String)
    (h : noId x d.elems) : noId x (reduceMediaPreloadF s d).elems := by
  unfold reduceMediaPreloadF
  split_ifs
  · exact h
  · intro e' he'
    obtain ⟨e, he, rfl⟩ := List.mem_map.mp he'
    rw [mediaPreloadStep_id]
    exact h e he

theorem noId_optimizeImageLoadingF (ctx : Ctx) (s : Settings) (d : Doc) (x : String)
    (h : noId x d.elems) : noId x (optimizeImageLoadingF ctx s d).elems := by
  unfold optimizeImageLoadingF
  split_ifs
  · exact h
  · intro e' he'
    obtain ⟨e, he, rfl⟩ := List.mem_map.mp he'
    rw [optImgGate_id]
    exact h e he

theorem noId_injectPageScriptF (v : Bool) (d : Doc) (x : String) (hx : x ≠ "")
    (h : noId x d.elems) : noId x (injectPageScriptF v d).elems := by
  unfold injectPageScriptF
  split_ifs
  · intro e' he'
    rcases List.mem_append.mp he' with hm | hm
    · exact h e' hm
    · have he2 : getAttrD e' "id" = "" := by
        rcases (by simpa using hm : e' = _) with rfl
        simp [getAttrD, getAttr, getAttrList, defaultElem]
      rw [he2]
      exact Ne.symm hx
  · exact h

theorem noId_disableAnimationsF (s : Settings) (d : Doc) (x : String) (hxa : x ≠ animStyleId)
    (h : noId x d.elems) : noId x (disableAnimationsF s d).elems := by
  unfold disableAnimationsF
  split_ifs
  · exact h
  · exact h
  · intro e' he'
    rcases List.mem_append.mp he' with hm | hm
    · exact h e' hm
    · rcases (by simpa using hm : e' = mkStyleElem animStyleId) with rfl
      have he2 : getAttrD (mkStyleElem animStyleId) "id" = animStyleId := by
        simp [getAttrD, getAttr, getAttrList, mkStyleElem, defaultElem]
      rw [he2]
      exact Ne.symm hxa

theorem noId_dnsLoop (x : String) (hx : x ≠ "") :
    ∀ (os : List String) (cnt : Nat) (d : Doc),
      noId x d.elems → noId x (dnsLoop os cnt d).elems
  | [], _, d, h => by
    rw [dnsLoop]
    exact h
  | o :: rest, cnt, d, h => by
    rw [dnsLoop]
    split_ifs with h1 h2
    · exact h
    · exact noId_dnsLoop x hx rest cnt d h
    · refine noId_dnsLoop x hx rest (cnt + 1) _ ?_
      intro e' he'
      rcases List.mem_append.mp he' with hm | hm
      · exact h e' hm
      · rcases (by simpa [hintPair] using hm :
            e' = mkDnsLink o ∨ e' = mkPreconnect o) with rfl | rfl
        · have : getAttrD (mkDnsLink o) "id" = "" := by
            simp [getAttrD, getAttr, getAttrList, mkDnsLink, defaultElem]
          rw [this]
          exact Ne.symm hx
        · have : getAttrD (mkPreconnect o) "id" = "" := by
            simp [getAttrD, getAttr, getAttrList, mkPreconnect, defaultElem]
          rw [this]
          exact Ne.symm hx

theorem noId_setupDNSPrefetchF (ctx : Ctx) (s : Settings) (d : Doc) (x : String) (hx : x ≠ "")
    (h : noId x d.elems) : noId x (setupDNSPrefetchF ctx s d).elems := by
  unfold setupDNSPrefetchF
  split_ifs
  · exact h
  · exact noId_dnsLoop x hx (collectOrigins ctx d) 0 d h

theorem noId_preloadLCPCandidateF (parse : String → Option Url) (ctx : Ctx) (s : Settings)
    (d : Doc) (x : String) (hx : x ≠ "")
    (h : noId x d.elems) : noId x (preloadLCPCandidateF parse ctx s d).elems := by
  unfold preloadLCPCandidateF
  split_ifs
  · exact h
  · rcases hscan : lcpScan ctx d.elems (none, 0) with ⟨b, area⟩
    cases b with
    | none => exact h
    | some img =>
      dsimp only
      split_ifs
      · exact h
      · intro e' he'
        rcases List.mem_append.mp he' with hm | hm
        · exact h e' hm
        · rcases (by simpa using hm : e' = mkPreloadLink parse img.hrefStr) with rfl
          have : getAttrD (mkPreloadLink parse img.hrefStr) "id" = "" := by
            simp [getAttrD, getAttr, getAttrList, mkPreloadLink, defaultElem]
          rw [this]
          exact Ne.symm hx
      · exact h

theorem noId_injectFontDisplaySwapF (s : Settings) (d : Doc) (x : String)
    (h : noId x d.elems) : noId x (injectFontDisplaySwapF s d).elems := by
  unfold injectFontDisplaySwapF
  split_ifs
  · exact h
  · exact h

theorem mem_of_mem_removeFirstById (x : String) :
    ∀ (l : List Elem) (e : Elem), e ∈ removeFirstById x l → e ∈ l
  | [], _, he => he
  | e' :: rest, e, he => by
    rw [removeFirstById] at he
    split_ifs at he with h1
    · exact List.mem_cons_of_mem _ he
    · rcases List.mem_cons.mp he with he2 | hm
      · exact he2 ▸ List.mem_cons_self e' rest
      · exact List.mem_cons_of_mem _ (mem_of_mem_removeFirstById x rest e hm)

theorem countP_removeFirstById_le (p : Elem → Bool) (x : String) :
    ∀ l : List Elem, (removeFirstById x l).countP p ≤ l.countP p
  | [] => le_refl _
  | e' :: rest => by
    rw [removeFirstById]
    split_ifs with h1
    · rw [List.countP_cons]
      exact Nat.le_add_right _ _
    · rw [List.countP_cons, List.countP_cons]
      exact Nat.add_le_add_right (countP_removeFirstById_le p x rest) _

theorem removeFirstById_noId (x : String) :
    ∀ l : List Elem, l.countP (fun e => getAttrD e "id" = x) ≤ 1 →
      noId x (removeFirstById x l)
  | [], _ => by
    intro e he
    cases he
  | e' :: rest, hc => by
    rw [removeFirstById]
    split_ifs with h1
    · intro e he
      simp [List.countP_cons, h1] at hc
      exact hc e he
    · intro e he
      rcases List.mem_cons.mp he with he2 | hm
      · exact he2 ▸ h1
      · refine removeFirstById_noId x rest ?_ e hm
        have hle : rest.countP (fun e => getAttrD e "id" = x) ≤
            (e' :: rest).countP (fun e => getAttrD e "id" = x) := by
          rw [List.countP_cons]
          exact Nat.le_add_right _ _
        exact hle.trans hc

theorem removeInjectedStylesF_noId_anim (d : Doc)
    (hc : d.elems.countP (fun e => getAttrD e "id" = animStyleId) ≤ 1) :
    noId animStyleId (removeInjectedStylesF d).elems := by
  unfold removeInjectedStylesF
  intro e' he'
  obtain ⟨e, he, rfl⟩ := List.mem_map.mp he'
  rw [getAttrD_removeAttr_ne _ _ _ (by decide)]
  exact removeFirstById_noId animStyleId _ hc e (mem_of_mem_removeFirstById cvStyleId _ e he)

theorem removeInjectedStylesF_noId_cv (d : Doc)
    (hc : d.elems.countP (fun e => getAttrD e "id" = cvStyleId) ≤ 1) :
    noId cvStyleId (removeInjectedStylesF d).elems := by
  unfold removeInjectedStylesF
  intro e' he'
  obtain ⟨e, he, rfl⟩ := List.mem_map.mp he'
  rw [getAttrD_removeAttr_ne _ _ _ (by decide)]
  refine removeFirstById_noId cvStyleId _ ?_ e he
  exact (countP_removeFirstById_le _ animStyleId d.elems).trans hc

theorem getElementById_isSome_false_of_noId (d : Doc) (x : String) (h : noId x d.elems) :
    (getElementById d x).isSome = false := by
  unfold getElementById
  cases hf : d.elems.find? (fun e => getAttrD e "id" = x) with
  | none => rfl
  | some e =>
    have hp := List.find?_some hf
    have hm := List.mem_of_find?_eq_some hf
    exact absurd (by simpa using hp) (h e hm)

theorem hasElemWithId_of_mem (d : Doc) (x : String) (e : Elem) (he : e ∈ d.elems)
    (hid : getAttrD e "id" = x) : hasElemWithId d x = true := by
  simp only [hasElemWithId, List.any_eq_true]
  exact ⟨e, he, by simpa using hid⟩

theorem disableAnimationsF_mem_style (s : Settings) (d : Doc)
    (hda : s.disableAnimations = true) (hno : noId animStyleId d.elems) :
    mkStyleElem animStyleId ∈ (disableAnimationsF s d).elems := by
  have hg : (getElementById d animStyleId).isSome = false :=
    getElementById_isSome_false_of_noId d _ hno
  unfold disableAnimationsF
  simp only [hda, hg, Bool.not_true, if_false, Bool.false_eq_true]
  exact List.mem_append_right _ (by simp)

theorem injectContentVisibilityF_mem_style (ctx : Ctx) (s : Settings) (d : Doc)
    (hcv : s.contentVisibility = true) (hno : noId cvStyleId d.elems)
    (e : Elem) (he : e ∈ d.elems) (hq : cvQualifies ctx e = true) :
    mkStyleElem cvStyleId ∈ (injectContentVisibilityF ctx s d).elems := by
  have hg : (getElementById d cvStyleId).isSome = false :=
    getElementById_isSome_false_of_noId d _ hno
  have htag : 0 < d.elems.countP (fun e => cvQualifies ctx e) :=
    List.countP_pos_iff.mpr ⟨e, he, by simpa using hq⟩
  simp only [injectContentVisibilityF, hcv, hg, Bool.not_true, if_false, Bool.false_eq_true]
  simp only [gt_iff_lt, htag, if_true]
  exact List.mem_append_right _ (by simp)

/-- C3 (amended): across a master-toggle cycle true→false→true (from
a valid, completely loaded state), every durable marker
(`data-fc-optimized`, `data-fc-stabilized`, `data-fc-media-opt`,
`data-fc-nb`) on a non-artifact node is still present on that node
afterwards, and each corresponding executor skips a node carrying its
marker (no re-processing); the content-visibility tag `data-fc-cv`,
by contrast, is removed at teardown and qualifying nodes are
re-tagged on re-enable (see the counterexample); and both Global
Injected Artifacts are re-injected — the animation-suppression style
whenever its feature flag is on, and the content-visibility style
whenever a qualifying below-the-fold candidate exists. -/
theorem claim_c3_amended (parse : String → Option Url) (ctx : Ctx) (s : Settings) (st : CState)
    (hv : st.contextValid = true)
    (hen : s.enabled = true)
    (hrs : st.readyState = CReady.complete)
    (hda : s.disableAnimations = true)
    (hcv : s.contentVisibility = true)
    (ha1 : st.doc.elems.countP (fun e => getAttrD e "id" = animStyleId) ≤ 1)
    (hc1 : st.doc.elems.countP (fun e => getAttrD e "id" = cvStyleId) ≤ 1)
    (hcand : ∃ e ∈ st.doc.elems, e.tag = "section" ∧ e.attrs = [] ∧
      2 * e.rect.top > 3 * ctx.innerH ∧ e.rect.bottom - e.rect.top > 100) :
    (∀ e ∈ st.doc.elems, getAttrD e "id" ≠ animStyleId → getAttrD e "id" ≠ cvStyleId →
      ∀ m ∈ durableMarkers, hasAttr e m = true →
        ∃ e' ∈ (toggleCycle parse ctx s st).doc.elems, hasAttr e' m = true) ∧
    (∀ e : Elem, hasAttr e "data-fc-optimized" = true → optImgGate ctx e = e) ∧
    (∀ e : Elem, hasAttr e "data-fc-media-opt" = true → mediaPreloadStep e = e) ∧
    (∀ e : Elem, hasAttr e "data-fc-nb" = true → handleNewStylesheetF s e = e) ∧
    (∀ e : Elem, hasAttr e "data-fc-stabilized" = true → stabilizeGate e = e) ∧
    hasElemWithId (toggleCycle parse ctx s st).doc animStyleId = true ∧
    hasElemWithId (toggleCycle parse ctx s st).doc cvStyleId = true := by
  have hdoc := toggleCycle_doc parse ctx s st hv hen hrs
  refine ⟨?_, ?_, ?_, ?_, ?_, ?_, ?_⟩
  · intro e he hia hic m hm h
    rw [hdoc]
    have he0 := mem_removeInjectedStylesF st.doc e he hia hic
    have h0 : hasAttr (removeAttr e "data-fc-cv") m = true := by
      rw [hasAttr_removeAttr_ne _ _ _ (durable_ne_cv m hm)]
      exact h
    exact presMark_enableDocPass parse ctx s _ _ he0 m hm h0
  · intro e h
    simp [optImgGate, h]
  · intro e h
    simp [mediaPreloadStep, h]
  · intro e h
    unfold handleNewStylesheetF
    split_ifs <;> simp_all
  · intro e h
    simp [stabilizeGate, h]
  · have hno0 : noId animStyleId (removeInjectedStylesF st.doc).elems :=
      removeInjectedStylesF_noId_anim st.doc ha1
    have hno1 : noId animStyleId (injectPageScriptF true (removeInjectedStylesF st.doc)).elems :=
      noId_injectPageScriptF true _ _ (by decide) hno0
    have hmem2 := disableAnimationsF_mem_style s _ hda hno1
    obtain ⟨f1, f2, f3, f4, f5, f6, f7, f8⟩ := inert_styleElem ctx animStyleId
    have hmem3 := mem_setupLazyLoadingF s _ _ hmem2 f1
    have hmem4 := mem_setupLazyLoadIframesF s _ _ hmem3 f2
    have hmem5 := mem_disableAutoplayF s _ _ hmem4 f3 f4
    have hmem6 := mem_reduceMediaPreloadF s _ _ hmem5 f5
    have hmem7 := mem_optimizeImageLoadingF ctx s _ _ hmem6 f6
    have hmem8 := mem_setupDNSPrefetchF ctx s _ _ hmem7
    have hmem9 := mem_preloadLCPCandidateF parse ctx s _ _ hmem8
    have hmem10 := mem_injectFontDisplaySwapF s _ _ hmem9
    have hmem11 := mem_injectContentVisibilityF ctx s _ _ hmem10 f8
    have hmem12 := mem_stabilizeImageLayoutF s _ _ hmem11 f7
    have hmem13 := mem_stabilizeImageLayoutF s _ _ hmem12 f7
    rw [hdoc]
    unfold enableDocPass onDOMContentLoadedF
    exact hasElemWithId_of_mem _ _ _ hmem13
      (by simp [getAttrD, getAttr, getAttrList, mkStyleElem])
  · obtain ⟨esec, hesec, htag, hattrs, hgeo1, hgeo2⟩ := hcand
    have hidsec : getAttrD esec "id" = "" := by
      simp [getAttrD, getAttr, hattrs, getAttrList]
    have hmem0 : esec ∈ (removeInjectedStylesF st.doc).elems := by
      have hmm := mem_removeInjectedStylesF st.doc esec hesec
        (by rw [hidsec]; decide) (by rw [hidsec]; decide)
      rwa [removeAttr_of_attrs_nil esec hattrs] at hmm
    obtain ⟨g1, g2, g3, g4, g5, g6, g7⟩ := section_fixed ctx esec htag hattrs
    have hmem1 := mem_injectPageScriptF true _ _ hmem0
    have hmem2 := mem_disableAnimationsF s _ _ hmem1
    have hmem3 := mem_setupLazyLoadingF s _ _ hmem2 g1
    have hmem4 := mem_setupLazyLoadIframesF s _ _ hmem3 g2
    have hmem5 := mem_disableAutoplayF s _ _ hmem4 g3 g4
    have hmem6 := mem_reduceMediaPreloadF s _ _ hmem5 g5
    have hmem7 := mem_optimizeImageLoadingF ctx s _ _ hmem6 g6
    have hmem8 := mem_setupDNSPrefetchF ctx s _ _ hmem7
    have hmem9 := mem_preloadLCPCandidateF parse ctx s _ _ hmem8
    have hmem10 := mem_injectFontDisplaySwapF s _ _ hmem9
    have hn0 : noId cvStyleId (removeInjectedStylesF st.doc).elems :=
      removeInjectedStylesF_noId_cv st.doc hc1
    have hn1 := noId_injectPageScriptF true _ _ (by decide) hn0
    have hn2 := noId_disableAnimationsF s _ _ (by decide) hn1
    have hn3 := noId_setupLazyLoadingF s _ _ hn2
    have hn4 := noId_setupLazyLoadIframesF s _ _ hn3
    have hn5 := noId_disableAutoplayF s _ _ hn4
    have hn6 := noId_reduceMediaPreloadF s _ _ hn5
    have hn7 := noId_optimizeImageLoadingF ctx s _ _ hn6
    have hn8 := noId_setupDNSPrefetchF ctx s _ _ (by decide) hn7
    have hn9 := noId_preloadLCPCandidateF parse ctx s _ _ (by decide) hn8
    have hn10 := noId_injectFontDisplaySwapF s _ _ hn9
    have hq : cvQualifies ctx esec = true := by
      simp [cvQualifies, cvCandidate, htag, hgeo1, hgeo2]
    have hmemStyle := injectContentVisibilityF_mem_style ctx s _ hcv hn10 esec hmem10 hq
    have hmemFinal := mem_stabilizeImageLayoutF s _ _ hmemStyle
      (inert_styleElem ctx cvStyleId).2.2.2.2.2.2.1
    have hmemFinal2 := mem_stabilizeImageLayoutF s _ _ hmemFinal
      (inert_styleElem ctx cvStyleId).2.2.2.2.2.2.1
    rw [hdoc]
    unfold enableDocPass onDOMContentLoadedF
    exact hasElemWithId_of_mem _ _ _ hmemFinal2
      (by simp [getAttrD, getAttr, getAttrList, mkStyleElem])

/-- C3 witness: the amended statement applied to the concrete
toggle-cycle scenario (marked image plus below-the-fold section). -/
theorem claim_c3_amended_witness :
    c3st0.contextValid = true ∧ c1settingsOn.enabled = true ∧
    c3st0.readyState = CReady.complete ∧
    hasElemWithId (toggleCycle c3parse c3ctx c1settingsOn c3st0).doc animStyleId = true ∧
    hasElemWithId (toggleCycle c3parse c3ctx c1settingsOn c3st0).doc cvStyleId = true :=
  ⟨rfl, rfl, rfl,
    (claim_c3_amended c3parse c3ctx c1settingsOn c3st0 rfl rfl rfl rfl rfl
      (by decide) (by decide)
      ⟨c3section, by decide, rfl, rfl, by decide, by decide⟩).2.2.2.2.2.1,
    (claim_c3_amended c3parse c3ctx c1settingsOn c3st0 rfl rfl rfl rfl rfl
      (by decide) (by decide)
      ⟨c3section, by decide, rfl, rfl, by decide, by decide⟩).2.2.2.2.2.2⟩

/-- C7 witness: three signals at times 3, 5, 7 coalesce into one
batch with deadline 203 that fires once. -/
theorem claim_c7_coalescing_witness :
    c7st0.valid = true ∧ c7st0.scheduled = false ∧
    (([3, 5, 7] : List Nat).foldl (fun a t => signalAt t a) c7st0).schedCount =
      c7st0.schedCount + 1 ∧
    (([3, 5, 7] : List Nat).foldl (fun a t => signalAt t a) c7st0).deadline = some 203 ∧
    (idleFireAt (([3, 5, 7] : List Nat).foldl (fun a t => signalAt t a) c7st0)).fired =
      c7st0.fired + 1 :=
  ⟨rfl, rfl, (claim_c7_coalescing 3 [5, 7] c7st0 rfl rfl).1,
    (claim_c7_coalescing 3 [5, 7] c7st0 rfl rfl).2.2.1,
    (claim_c7_coalescing 3 [5, 7] c7st0 rfl rfl).2.2.2.2.1⟩

end FC
